import Mathlib

/-!
Verification development for the image-generation MCP server.

Python strings are modelled as `List Char`; `str.lower`, `re` word
extraction and `\w` are modelled over ASCII, which is the character range
the repository's templates, providers and messages use.  Filesystem state
is an explicit list of existing paths, wall-clock time is an explicit
`PyDateTime` argument, and every outbound network call, sleep and file
write of the providers is recorded in an explicit event trace.
-/

/-- Shorthand for the character list of a string literal. -/
def str (s : String) : List Char := s.data

/-- ASCII uppercase test (codes 65 to 90). -/
def isAsciiUpperB (c : Char) : Bool := 65 ≤ c.toNat && c.toNat ≤ 90

/-- ASCII lowercase test (codes 97 to 122). -/
def isAsciiLowerB (c : Char) : Bool := 97 ≤ c.toNat && c.toNat ≤ 122

/-- ASCII letter test, the character class of the regex `[a-zA-Z]`. -/
def isAsciiAlphaB (c : Char) : Bool := isAsciiUpperB c || isAsciiLowerB c

/-- ASCII digit test (codes 48 to 57). -/
def isAsciiDigitB (c : Char) : Bool := 48 ≤ c.toNat && c.toNat ≤ 57

/-- Word character of the regex `\w`, ASCII fragment: `[A-Za-z0-9_]`. -/
def isWordCharB (c : Char) : Bool := isAsciiAlphaB c || isAsciiDigitB c || c = '_'

/-- Python `str.lower`, ASCII fragment: `Char.toLower` maps codes 65..90 up by 32. -/
def pyLower (s : List Char) : List Char := s.map Char.toLower

/-- Boolean prefix test on character lists. -/
def isPrefixB : List Char → List Char → Bool
  | [], _ => true
  | _ :: _, [] => false
  | a :: as, b :: bs => a = b && isPrefixB as bs

/-- Boolean suffix test, via reversal. -/
def isSuffixB (p s : List Char) : Bool := isPrefixB p.reverse s.reverse

/-- Boolean substring test: Python `pat in s`. -/
def containsSub : List Char → List Char → Bool
  | [], p => p.isEmpty
  | c :: rest, p => isPrefixB p (c :: rest) || containsSub rest p

/-- Boolean membership of a character list in a list of character lists. -/
def memB (l : List (List Char)) (x : List Char) : Bool := l.any (fun q => q = x)

/-- Python `s.replace(pat, rep)`: replace every non-overlapping occurrence,
scanning left to right (the replacement text is not rescanned).
Fuel-indexed: fuel `≥ length s` suffices, since every step consumes at
least one character of `s`.  A `pat = []` guard leaves `s` unchanged; every
pattern the repository uses is non-empty. -/
def pyReplaceFuel (pat rep : List Char) : Nat → List Char → List Char
  | 0, s => s
  | f + 1, s =>
    match s with
    | [] => []
    | c :: rest =>
      if pat ≠ [] ∧ isPrefixB pat (c :: rest) = true then
        rep ++ pyReplaceFuel pat rep f ((c :: rest).drop pat.length)
      else
        c :: pyReplaceFuel pat rep f rest

/-- Python `s.replace(pat, rep)`. -/
def pyReplace (s pat rep : List Char) : List Char := pyReplaceFuel pat rep s.length s

/-- Decimal digit character for `n % 10`. -/
def digitChar (n : Nat) : Char := Char.ofNat (48 + n % 10)

/-- Decimal digits of a natural number, most significant first (fuel-indexed). -/
def natCharsAux : Nat → Nat → List Char
  | 0, _ => []
  | f + 1, n => if n < 10 then [digitChar n] else natCharsAux f (n / 10) ++ [digitChar (n % 10)]

/-- Decimal rendering of a natural number, as Python `str(n)` for `n ≥ 0`. -/
def natChars (n : Nat) : List Char := natCharsAux (n + 1) n

/-- Zero-padded decimal rendering of width `w`: Python `f"{n:0wd}"` for `n ≥ 0`. -/
def padNum (w n : Nat) : List Char :=
  let d := natChars n
  List.replicate (w - d.length) '0' ++ d

/-- Wall-clock instant consumed by `datetime.now()` in `filename.py`, passed
explicitly so that time dependence is visible in the embedding. -/
structure PyDateTime where
  month : Nat
  day : Nat
  year : Nat
  hour : Nat
  minute : Nat
  second : Nat
deriving DecidableEq

/-- `now.strftime('%m%d%y.%H%M%S')`. -/
def strftimeTimestamp (t : PyDateTime) : List Char :=
  padNum 2 t.month ++ padNum 2 t.day ++ padNum 2 (t.year % 100) ++ '.' ::
    (padNum 2 t.hour ++ padNum 2 t.minute ++ padNum 2 t.second)

/-- `now.strftime('%m%d%y')`. -/
def strftimeDate (t : PyDateTime) : List Char :=
  padNum 2 t.month ++ padNum 2 t.day ++ padNum 2 (t.year % 100)

/-- `now.strftime('%H%M%S')`. -/
def strftimeTime (t : PyDateTime) : List Char :=
  padNum 2 t.hour ++ padNum 2 t.minute ++ padNum 2 t.second

/-! MD5 (`hashlib.md5`), implemented from RFC 1321 over byte lists, with
UTF-8 encoding for `str.encode()`.  All arithmetic is `Nat` reduced
modulo `2 ^ 32` where the reference algorithm uses 32-bit words. -/

/-- UTF-8 encoding of one character, as `str.encode()` produces. -/
def utf8Bytes (c : Char) : List Nat :=
  let n := c.toNat
  if n < 128 then [n]
  else if n < 2048 then [192 + n / 64, 128 + n % 64]
  else if n < 65536 then [224 + n / 4096, 128 + n / 64 % 64, 128 + n % 64]
  else [240 + n / 262144, 128 + n / 4096 % 64, 128 + n / 64 % 64, 128 + n % 64]

/-- UTF-8 encoding of a string. -/
def encodeUtf8 (s : List Char) : List Nat := (s.map utf8Bytes).flatten

/-- Reduction to a 32-bit word. -/
def u32 (n : Nat) : Nat := n % 4294967296

/-- 32-bit left rotation. -/
def rotl32 (x n : Nat) : Nat := u32 ((x <<< n) ||| (x >>> (32 - n)))

/-- The 64 MD5 sine-derived constants. -/
def md5K : List Nat := [
  0xd76aa478, 0xe8c7b756, 0x242070db, 0xc1bdceee,
  0xf57c0faf, 0x4787c62a, 0xa8304613, 0xfd469501,
  0x698098d8, 0x8b44f7af, 0xffff5bb1, 0x895cd7be,
  0x6b901122, 0xfd987193, 0xa679438e, 0x49b40821,
  0xf61e2562, 0xc040b340, 0x265e5a51, 0xe9b6c7aa,
  0xd62f105d, 0x02441453, 0xd8a1e681, 0xe7d3fbc8,
  0x21e1cde6, 0xc33707d6, 0xf4d50d87, 0x455a14ed,
  0xa9e3e905, 0xfcefa3f8, 0x676f02d9, 0x8d2a4c8a,
  0xfffa3942, 0x8771f681, 0x6d9d6122, 0xfde5380c,
  0xa4beea44, 0x4bdecfa9, 0xf6bb4b60, 0xbebfbc70,
  0x289b7ec6, 0xeaa127fa, 0xd4ef3085, 0x04881d05,
  0xd9d4d039, 0xe6db99e5, 0x1fa27cf8, 0xc4ac5665,
  0xf4292244, 0x432aff97, 0xab9423a7, 0xfc93a039,
  0x655b59c3, 0x8f0ccc92, 0xffeff47d, 0x85845dd1,
  0x6fa87e4f, 0xfe2ce6e0, 0xa3014314, 0x4e0811a1,
  0xf7537e82, 0xbd3af235, 0x2ad7d2bb, 0xeb86d391]

/-- The 64 MD5 per-round left-rotation amounts. -/
def md5S : List Nat := [
  7, 12, 17, 22, 7, 12, 17, 22, 7, 12, 17, 22, 7, 12, 17, 22,
  5, 9, 14, 20, 5, 9, 14, 20, 5, 9, 14, 20, 5, 9, 14, 20,
  4, 11, 16, 23, 4, 11, 16, 23, 4, 11, 16, 23, 4, 11, 16, 23,
  6, 10, 15, 21, 6, 10, 15, 21, 6, 10, 15, 21, 6, 10, 15, 21]

/-- One MD5 round applied to the running state, step index `i < 64`. -/
def md5Round (M : List Nat) (st : Nat × Nat × Nat × Nat) (i : Nat) :
    Nat × Nat × Nat × Nat :=
  let a := st.1
  let b := st.2.1
  let c := st.2.2.1
  let d := st.2.2.2
  let fg : Nat × Nat :=
    if i < 16 then ((b &&& c) ||| ((b ^^^ 0xffffffff) &&& d), i)
    else if i < 32 then ((d &&& b) ||| ((d ^^^ 0xffffffff) &&& c), (5 * i + 1) % 16)
    else if i < 48 then (b ^^^ c ^^^ d, (3 * i + 5) % 16)
    else (c ^^^ (b ||| (d ^^^ 0xffffffff)), (7 * i) % 16)
  let f := u32 (fg.1 + a + md5K.getD i 0 + M.getD fg.2 0)
  (d, u32 (b + rotl32 f (md5S.getD i 0)), b, c)

/-- 16 little-endian 32-bit words of one 64-byte chunk. -/
def md5Words (chunk : List Nat) : List Nat :=
  (List.range 16).map (fun j =>
    chunk.getD (4 * j) 0 + 256 * chunk.getD (4 * j + 1) 0 +
      65536 * chunk.getD (4 * j + 2) 0 + 16777216 * chunk.getD (4 * j + 3) 0)

/-- MD5 padding: `0x80`, zeros to 56 mod 64, then the 64-bit little-endian bit length. -/
def md5Pad (msg : List Nat) : List Nat :=
  let len := msg.length
  let zeros := (120 - (len + 1) % 64) % 64
  let bits := (8 * len) % 18446744073709551616
  msg ++ 128 :: List.replicate zeros 0 ++
    (List.range 8).map (fun k => bits / 256 ^ k % 256)

/-- Split a byte list into 64-byte chunks (fuel-indexed; fuel `≥ length` suffices). -/
def chunks64 : Nat → List Nat → List (List Nat)
  | 0, _ => []
  | _, [] => []
  | f + 1, l => l.take 64 :: chunks64 f (l.drop 64)

/-- Little-endian bytes of a 32-bit word. -/
def wordLE (w : Nat) : List Nat := [w % 256, w / 256 % 256, w / 65536 % 256, w / 16777216 % 256]

/-- The 16-byte MD5 digest of a byte list. -/
def md5Digest (msg : List Nat) : List Nat :=
  let padded := md5Pad msg
  let init : Nat × Nat × Nat × Nat := (0x67452301, 0xefcdab89, 0x98badcfe, 0x10325476)
  let final := (chunks64 padded.length padded).foldl (fun st chunk =>
    let M := md5Words chunk
    let r := (List.range 64).foldl (md5Round M) st
    (u32 (st.1 + r.1), u32 (st.2.1 + r.2.1), u32 (st.2.2.1 + r.2.2.1),
      u32 (st.2.2.2 + r.2.2.2))) init
  wordLE final.1 ++ wordLE final.2.1 ++ wordLE final.2.2.1 ++ wordLE final.2.2.2

/-- Lowercase hexadecimal digit character for `n < 16`. -/
def hexChar (n : Nat) : Char :=
  if n % 16 < 10 then Char.ofNat (48 + n % 16) else Char.ofNat (87 + n % 16)

/-- Lowercase hexadecimal rendering of a byte list: `hexdigest()`. -/
def hexOfBytes (bs : List Nat) : List Char :=
  (bs.map (fun b => [hexChar (b / 16 % 16), hexChar (b % 16)])).flatten

/-- `generate_prompt_hash(prompt, length=8)` from `utils/filename.py`:
the first `length` characters of the MD5 hexdigest of the prompt. -/
def generate_prompt_hash (prompt : List Char) (length : Nat) : List Char :=
  (hexOfBytes (md5Digest (encodeUtf8 prompt))).take length

/-! Subject extraction (`extract_subject` in `utils/filename.py`). -/

/-- The ordered prefix list of `extract_subject`; only the first match is removed. -/
def prefixes_to_remove : List (List Char) :=
  [str "a ", str "an ", str "the ", str "create ", str "generate ", str "make ",
   str "draw ", str "paint ",
   str "digital painting of ", str "artwork of ", str "image of ", str "picture of ",
   str "realistic ", str "detailed ", str "highly detailed ", str "professional ",
   str "masterpiece ", str "award-winning ", str "stunning ", str "beautiful "]

/-- The ordered suffix list of `extract_subject`; only the first match is removed. -/
def suffixes_to_remove : List (List Char) :=
  [str " style", str " art", str " artwork", str " painting", str " image",
   str " picture",
   str " digital art", str " concept art", str " illustration", str " render",
   str " highly detailed", str " professional", str " masterpiece", str " 4k", str " 8k"]

/-- The stop-word set filtered out of candidate subject words. -/
def common_words : List (List Char) :=
  [str "with", str "and", str "or", str "but", str "in", str "on", str "at",
   str "to", str "for", str "of", str "from",
   str "up", str "about", str "into", str "through", str "during", str "before",
   str "after", str "above",
   str "below", str "between", str "among", str "very", str "really", str "quite",
   str "rather", str "too"]

/-- Remove the first matching prefix from the list, as the `for`/`break` loop does. -/
def stripFirstPrefix : List (List Char) → List Char → List Char
  | [], s => s
  | p :: rest, s => if isPrefixB p s then s.drop p.length else stripFirstPrefix rest s

/-- Remove the first matching suffix (`clean_prompt[:-len(suffix)]`), as the
`for`/`break` loop does. -/
def stripFirstSuffix : List (List Char) → List Char → List Char
  | [], s => s
  | p :: rest, s =>
    if isSuffixB p s then s.take (s.length - p.length) else stripFirstSuffix rest s

/-- Maximal runs of `\w` characters, accumulator-based. -/
def wordRunsAux : List Char → List Char → List (List Char)
  | [], acc => if acc.isEmpty then [] else [acc.reverse]
  | c :: rest, acc =>
    if isWordCharB c then wordRunsAux rest (c :: acc)
    else if acc.isEmpty then wordRunsAux rest []
    else acc.reverse :: wordRunsAux rest []

/-- Maximal runs of `\w` characters of a string. -/
def wordRuns (s : List Char) : List (List Char) := wordRunsAux s []

/-- `re.findall(r'\b[a-zA-Z]+\b', s)`: the maximal `\w` runs consisting purely
of letters (a run touching a digit or underscore has no `\b` boundary and is
not matched). -/
def findLetterWords (s : List Char) : List (List Char) :=
  (wordRuns s).filter (fun w => w.all isAsciiAlphaB)

/-- `'_'.join(ws)`. -/
def joinUnderscore : List (List Char) → List Char
  | [] => []
  | [w] => w
  | w :: ws => w ++ '_' :: joinUnderscore ws

/-- The lower-cased prompt with one generic prefix and one style suffix
removed (`clean_prompt` at the point words are extracted). -/
def cleanedPrompt (prompt : List Char) : List Char :=
  stripFirstSuffix suffixes_to_remove
    (stripFirstPrefix prefixes_to_remove (pyLower prompt))

/-- `subject_words` of `extract_subject`: the first four meaningful words,
falling back to the first four raw words when all are stop words. -/
def subjectWords (prompt : List Char) : List (List Char) :=
  let words := findLetterWords (cleanedPrompt prompt)
  let meaningful_words := words.filter (fun w => !(memB common_words (pyLower w)))
  if !meaningful_words.isEmpty then meaningful_words.take 4 else words.take 4

/-- `extract_subject(prompt, max_length)` from `utils/filename.py`. -/
def extract_subject (prompt : List Char) (max_length : Nat) : List Char :=
  let subject := joinUnderscore (subjectWords prompt)
  let subject := if subject.length > max_length then subject.take max_length else subject
  if subject.isEmpty then str "image" else subject

/-! Template application (`apply_filename_template` in `utils/filename.py`). -/

/-- The placeholder pattern `f'\x7b\x7b.{key}\x7d\x7d'` for key `Timestamp`. -/
def phTimestamp : List Char := str "\x7b\x7b.Timestamp\x7d\x7d"

/-- Placeholder pattern for key `Date`. -/
def phDate : List Char := str "\x7b\x7b.Date\x7d\x7d"

/-- Placeholder pattern for key `Time`. -/
def phTime : List Char := str "\x7b\x7b.Time\x7d\x7d"

/-- Placeholder pattern for key `Provider`. -/
def phProvider : List Char := str "\x7b\x7b.Provider\x7d\x7d"

/-- Placeholder pattern for key `Model`. -/
def phModel : List Char := str "\x7b\x7b.Model\x7d\x7d"

/-- Placeholder pattern for key `Subject`. -/
def phSubject : List Char := str "\x7b\x7b.Subject\x7d\x7d"

/-- Placeholder pattern for key `Hash`. -/
def phHash : List Char := str "\x7b\x7b.Hash\x7d\x7d"

/-- Placeholder pattern for key `Counter`. -/
def phCounter : List Char := str "\x7b\x7b.Counter\x7d\x7d"

/-- The `variables` dict of `apply_filename_template`, in insertion order,
already paired with the full pattern each key is substituted for.  `Counter`
is present only when a counter was supplied. -/
def templateVars (now : PyDateTime) (prompt provider model : List Char)
    (counter : Option Nat) : List (List Char × List Char) :=
  [(phTimestamp, strftimeTimestamp now),
   (phDate, strftimeDate now),
   (phTime, strftimeTime now),
   (phProvider, pyLower provider),
   (phModel, pyReplace (pyReplace model ['.'] []) ['-'] []),
   (phSubject, extract_subject prompt 50),
   (phHash, generate_prompt_hash prompt 8)] ++
  (match counter with
   | some c => [(phCounter, padNum 3 c)]
   | none => [])

/-- Leftmost match of the regex `\x7b\x7b[^\x7d]*\x7d\x7d` at the head of the
string: two braces, a maximal run of non-`\x7d` characters, two closing
braces; returns the matched length. -/
def matchMarker (s : List Char) : Option Nat :=
  match s with
  | c1 :: c2 :: t =>
    if c1 = '{' ∧ c2 = '{' then
      match t.drop (t.takeWhile (fun c => c ≠ '}')).length with
      | d1 :: d2 :: _ =>
        if d1 = '}' ∧ d2 = '}' then some (2 + (t.takeWhile (fun c => c ≠ '}')).length + 2)
        else none
      | _ => none
    else none
  | _ => none

/-- `re.sub(r'\x7b\x7b[^\x7d]*\x7d\x7d', '', s)`: scan left to right, deleting
each leftmost match and resuming after it (fuel-indexed; fuel `≥ length`
suffices since every step consumes at least one character). -/
def stripMarkersFuel : Nat → List Char → List Char
  | 0, s => s
  | f + 1, s =>
    match s with
    | [] => []
    | c :: rest =>
      match matchMarker (c :: rest) with
      | some n => stripMarkersFuel f ((c :: rest).drop n)
      | none => c :: stripMarkersFuel f rest

/-- The cleanup regex pass of `apply_filename_template`. -/
def stripMarkers (s : List Char) : List Char := stripMarkersFuel s.length s

/-- The characters of the class `[<>:"/\\|?*]` replaced by `_`. -/
def illegalChars : List Char := ['<', '>', ':', '"', '/', '\\', '|', '?', '*']

/-- `re.sub(r'[<>:"/\\|?*]', '_', s)`. -/
def sanitizeChars (s : List Char) : List Char :=
  s.map (fun c => if illegalChars.contains c then '_' else c)

/-- `re.sub(r'_+', '_', s)`: collapse each run of underscores to one. -/
def collapseU : List Char → List Char
  | [] => []
  | [c] => [c]
  | c :: d :: rest =>
    if c = '_' ∧ d = '_' then collapseU (d :: rest) else c :: collapseU (d :: rest)

/-- `s.strip('_')`. -/
def stripUnderscores (s : List Char) : List Char :=
  ((s.dropWhile (fun c => c = '_')).reverse.dropWhile (fun c => c = '_')).reverse

/-- `apply_filename_template(template, prompt, provider, model, counter)` from
`utils/filename.py`, with `datetime.now()` passed in explicitly. -/
def apply_filename_template (now : PyDateTime)
    (template prompt provider model : List Char) (counter : Option Nat) : List Char :=
  let filename := (templateVars now prompt provider model counter).foldl
    (fun f kv => pyReplace f kv.1 kv.2) template
  let filename := stripMarkers filename
  let filename := sanitizeChars filename
  let filename := collapseU filename
  stripUnderscores filename

/-! `generate_filename` (`utils/filename.py`), with the filesystem as an
explicit list of existing paths; paths are raw strings joined with `/`
(`pathlib` normalization is not modelled — the repository always joins a
directory with a sanitized, slash-free name). -/

/-- `Path(dir) / name`, as a raw string join. -/
def pathJoin (dir name : List Char) : List Char := dir ++ '/' :: name

/-- The final component of a path (`Path(p).name`). -/
def pathName (p : List Char) : List Char :=
  (p.reverse.takeWhile (fun c => c ≠ '/')).reverse

/-- Everything before the last slash (`str(Path(p).parent)` for the joined
paths built here). -/
def pathParent (p : List Char) : List Char :=
  ((p.reverse.dropWhile (fun c => c ≠ '/')).drop 1).reverse

/-- The index of the last `.` of a name, if any. -/
def rfindDot (name : List Char) : Option Nat :=
  match name.reverse.findIdx? (fun c => c = '.') with
  | none => none
  | some j => some (name.length - 1 - j)

/-- `Path(name).suffix` (CPython: the part from the last dot, provided that
dot is neither the leading character nor the final one). -/
def pySuffix (name : List Char) : List Char :=
  match rfindDot name with
  | none => []
  | some i => if 0 < i ∧ i + 1 < name.length then name.drop i else []

/-- `Path(name).stem`: the name minus its `pySuffix`. -/
def pyStem (name : List Char) : List Char :=
  match rfindDot name with
  | none => name
  | some i => if 0 < i ∧ i + 1 < name.length then name.take i else name

/-- The `while output_path.exists()` loop of `generate_filename`: try
`stem_​001`, `stem_002`, ... until a free path is found.  Fuel-indexed;
`fs.length + 1` attempts always reach a free name because the candidates
are pairwise distinct. -/
def resolveConflict (fs : List (List Char)) (parent stem sfx : List Char) :
    Nat → Nat → List Char
  | 0, k => pathJoin parent (stem ++ '_' :: padNum 3 k ++ sfx)
  | f + 1, k =>
    let cand := pathJoin parent (stem ++ '_' :: padNum 3 k ++ sfx)
    if memB fs cand then resolveConflict fs parent stem sfx f (k + 1) else cand

/-- The rendered base name with the extension appended when not already
present (the `Apply template` / `Add extension` steps of `generate_filename`). -/
def finalBaseName (now : PyDateTime)
    (template prompt provider model extension : List Char)
    (counter : Option Nat) : List Char :=
  let base := apply_filename_template now template prompt provider model counter
  if isSuffixB ('.' :: extension) base then base else base ++ '.' :: extension

/-- `generate_filename(template, prompt, provider, model, output_dir,
extension, counter)` from `utils/filename.py`, over the explicit filesystem
`fs` and clock `now`. -/
def generate_filename (fs : List (List Char)) (now : PyDateTime)
    (template prompt provider model output_dir extension : List Char)
    (counter : Option Nat) : List Char :=
  let output_path := pathJoin output_dir
    (finalBaseName now template prompt provider model extension counter)
  if memB fs output_path then
    resolveConflict fs (pathParent output_path) (pyStem (pathName output_path))
      (pySuffix (pathName output_path)) (fs.length + 1) 1
  else output_path

/-! Provider backends (`providers/stability.py`, `providers/bfl.py`).
Outbound network calls, sleeps, directory creation and file writes are
recorded as events; HTTP responses come from an explicit environment. -/

/-- Kind of outbound HTTP request. -/
inductive NetKind
  | submit
  | poll
  | download
deriving DecidableEq

/-- Observable side effects of a `generate_image` run. -/
inductive GenEvent
  | net (kind : NetKind) (endpoint : List Char)
  | sleeping (seconds : Nat)
  | mkdirp (path : List Char)
  | fileWrite (path : List Char) (content : List Nat)
deriving DecidableEq

/-- A Python exception as surfaced to the tool layer. -/
inductive PyExc
  | valueError (msg : List Char)
  | runtimeError (msg : List Char)
deriving DecidableEq

/-- `str(e)` of a modelled exception. -/
def pyStr : PyExc → List Char
  | .valueError m => m
  | .runtimeError m => m

/-- Is the exception the `ValueError` of an input-validation failure? -/
def isValueErrorB : PyExc → Bool
  | .valueError _ => true
  | .runtimeError _ => false

/-- The function-level `except Exception as e: raise RuntimeError(f"Failed to
generate image: {str(e)}")` handler shared by both providers. -/
def wrapOuter (m : List Char) : PyExc :=
  .runtimeError (str "Failed to generate image: " ++ m)

/-- Python truthiness of an optional string. -/
def pyTruthy : Option (List Char) → Bool
  | none => false
  | some s => !s.isEmpty

/-- `int(s)` for the decimal-digit strings a `Seed` header can carry; any
other form raises, which the caller turns into omitting the seed. -/
def pyParseNat (s : List Char) : Option Nat :=
  if s ≠ [] ∧ s.all isAsciiDigitB then
    some (s.foldl (fun a c => 10 * a + (c.toNat - 48)) 0)
  else none

/-- The non-200 handler shared by both providers, modelling the nested
`try`/`except` of the source: the inner block parses the body and raises
the message-carrying `RuntimeError`, but that raise is caught by its own
bare `except Exception`, which then raises the status/text form.  The
inner computation is built and discarded exactly as the source does. -/
def buggyNon200 (pfx : List Char) (status : Nat)
    (jsonMessage : Option (Option (List Char))) (text : List Char) : PyExc :=
  let inner : Except PyExc Empty :=
    match jsonMessage with
    | none => .error (.runtimeError (str "response body is not JSON"))
    | some m => .error (.runtimeError (pfx ++ m.getD (str "HTTP " ++ natChars status)))
  match inner with
  | .error _ => wrapOuter (pfx ++ natChars status ++ str " - " ++ text)
  | .ok e => e.elim

/-- The `StabilityModel` enumeration values. -/
def stabilityModels : List (List Char) :=
  [str "sd3-large", str "sd3-large-turbo", str "sd3-medium",
   str "sd3.5-large", str "sd3.5-large-turbo", str "sd3.5-medium"]

/-- The `AspectRatio` enumeration values. -/
def stabilityAspects : List (List Char) :=
  [str "16:9", str "1:1", str "21:9", str "2:3", str "3:2",
   str "4:5", str "5:4", str "9:16", str "9:21"]

/-- `StabilityClient._validate_model`: fall back to `sd3.5-large`. -/
def validateStabilityModel (model : List Char) : List Char :=
  if memB stabilityModels model then model else str "sd3.5-large"

/-- `StabilityClient._validate_aspect_ratio`: fall back to `1:1`. -/
def validateStabilityAspect (a : List Char) : List Char :=
  if memB stabilityAspects a then a else str "1:1"

/-- The models for which a negative prompt is dropped. -/
def turboModels : List (List Char) := [str "sd3-large-turbo", str "sd3.5-large-turbo"]

/-- The HTTP response the Stability environment returns for the single POST.
`jsonMessage` models `response.json().get('message')`: `none` when the body
is not parseable JSON, `some none` when it parses without a `message` key. -/
structure StabilityResponse where
  status : Nat
  jsonMessage : Option (Option (List Char))
  text : List Char
  seedHeader : Option (List Char)
  content : List Nat

/-- The success dictionary returned by `StabilityClient.generate_image`,
with the nested `parameters` dict flattened into fields. -/
structure StabilityResult where
  success : Bool
  provider : List Char
  model : List Char
  image_size : Nat
  prompt : List Char
  negative_prompt : Option (List Char)
  aspect : List Char
  cfg_scale : Rat
  seed : Option Nat
  output_format : List Char
  actual_seed : Option Nat
deriving DecidableEq

/-- `StabilityClient.generate_image`.  The length validations sit before the
`try` block, so their `ValueError`s escape unwrapped and nothing has been
sent; inside the `try`, the non-200 handler parses the body and raises, but
that inner `raise` is caught by its own bare `except Exception`, so the
status/text form is always the one raised. -/
def stabilityGenerate (env : StabilityResponse) (prompt : List Char)
    (negative_prompt : Option (List Char)) (model aspect : List Char)
    (cfg_scale : Rat) (seed : Option Nat) (output_path : Option (List Char)) :
    Except PyExc StabilityResult × List GenEvent :=
  let model := validateStabilityModel model
  let aspect := validateStabilityAspect aspect
  if prompt.length > 10000 then
    (.error (.valueError (str "Prompt must be 10000 characters or less")), [])
  else if pyTruthy negative_prompt = true ∧ (negative_prompt.getD []).length > 10000 then
    (.error (.valueError (str "Negative prompt must be 10000 characters or less")), [])
  else
    let negative_prompt :=
      if pyTruthy negative_prompt = true ∧ memB turboModels model = true then none
      else negative_prompt
    let cfg_scale := max 1 (min 10 cfg_scale)
    let submitEv := GenEvent.net .submit (str "/v2beta/stable-image/generate/sd3")
    if env.status ≠ 200 then
      (.error (buggyNon200 (str "Stability AI API Error: ") env.status env.jsonMessage env.text),
       [submitEv])
    else
      let actual_seed :=
        if pyTruthy env.seedHeader then pyParseNat (env.seedHeader.getD []) else none
      let writes :=
        match output_path with
        | some p => [GenEvent.mkdirp (pathParent p), GenEvent.fileWrite p env.content]
        | none => []
      (.ok { success := true, provider := str "stability", model := model,
             image_size := env.content.length, prompt := prompt,
             negative_prompt := negative_prompt, aspect := aspect,
             cfg_scale := cfg_scale, seed := seed, output_format := str "png",
             actual_seed := actual_seed },
       submitEv :: writes)

/-- The `BFLModel` enumeration values. -/
def bflModels : List (List Char) :=
  [str "flux-pro-1.1-ultra", str "flux-pro-1.1", str "flux-pro", str "flux-dev"]

/-- `BFLClient._validate_model`: fall back to `flux-pro-1.1`. -/
def validateBflModel (model : List Char) : List Char :=
  if memB bflModels model then model else str "flux-pro-1.1"

/-- The `aspect_map` lookup table of `_convert_aspect_ratio_to_dimensions`. -/
def aspectDimensionTable : List (List Char × (Nat × Nat)) :=
  [(str "16:9", (1344, 768)),
   (str "1:1", (1024, 1024)),
   (str "21:9", (1536, 640)),
   (str "2:3", (832, 1216)),
   (str "3:2", (1216, 832)),
   (str "4:5", (896, 1152)),
   (str "5:4", (1152, 896)),
   (str "9:16", (768, 1344)),
   (str "9:21", (640, 1536))]

/-- First-match association lookup, as `dict.get`. -/
def lookupDim : List (List Char × (Nat × Nat)) → List Char → Option (Nat × Nat)
  | [], _ => none
  | (k, v) :: rest, a => if k = a then some v else lookupDim rest a

/-- `BFLClient._convert_aspect_ratio_to_dimensions`: table lookup with the
square default `(1024, 1024)`. -/
def convertAspectToDimensions (a : List Char) : Nat × Nat :=
  (lookupDim aspectDimensionTable a).getD (1024, 1024)

/-- The response to the BFL submit POST; `id` models `response.json()["id"]`. -/
structure BFLSubmitResponse where
  status : Nat
  jsonMessage : Option (Option (List Char))
  text : List Char
  id : List Char

/-- One `/get_result` response: HTTP status (for `raise_for_status`), the
job `status` string, `result_data.get('error')` and
`result_data["result"]["sample"]`. -/
structure BFLPollResponse where
  httpStatus : Nat
  status : List Char
  errorMsg : Option (List Char)
  sample : List Char

/-- The signed-URL download response. -/
structure BFLDownload where
  httpStatus : Nat
  content : List Nat

/-- The network environment of one BFL run; `poll n` is the response to the
`n`-th poll (`n` is the value of `attempt` when the GET is issued, 1-based). -/
structure BFLEnv where
  submit : BFLSubmitResponse
  poll : Nat → BFLPollResponse
  download : BFLDownload

/-- The success dictionary returned by `BFLClient.generate_image`, with the
nested `parameters` dict flattened into fields. -/
structure BFLResult where
  success : Bool
  provider : List Char
  model : List Char
  image_size : Nat
  prompt : List Char
  width : Nat
  height : Nat
  aspect : List Char
  output_format : List Char
  request_id : List Char
deriving DecidableEq

/-- The polling loop of `BFLClient.generate_image`: sleep one second,
increment `attempt`, GET `/get_result`, then branch on the reported status.
`fuel` counts the remaining iterations of `while attempt < max_attempts`;
exhausting it is the timeout raise after the loop.  `raise_for_status`
failures take the `except httpx.HTTPError` path (its message is modelled by
the status code), which the function-level handler does not wrap. -/
def bflPollLoop (env : BFLEnv) (output_path : Option (List Char))
    (model prompt : List Char) (width height : Nat) (aspect : List Char) :
    Nat → Nat → Except PyExc BFLResult × List GenEvent
  | 0, _ => (.error (wrapOuter (str "BFL generation timed out after 120 seconds")), [])
  | fuel + 1, attempt =>
    let evs := [GenEvent.sleeping 1, GenEvent.net .poll (str "/get_result")]
    let pr := env.poll (attempt + 1)
    if pr.httpStatus ≥ 400 then
      (.error (.runtimeError (str "HTTP error: status " ++ natChars pr.httpStatus)), evs)
    else if pr.status = str "Ready" then
      let dlEv := GenEvent.net .download pr.sample
      if env.download.httpStatus ≥ 400 then
        (.error (.runtimeError (str "HTTP error: status " ++
          natChars env.download.httpStatus)), evs ++ [dlEv])
      else
        let writes :=
          match output_path with
          | some p => [GenEvent.mkdirp (pathParent p),
              GenEvent.fileWrite p env.download.content]
          | none => []
        (.ok { success := true, provider := str "bfl", model := model,
               image_size := env.download.content.length, prompt := prompt,
               width := width, height := height, aspect := aspect,
               output_format := str "png", request_id := env.submit.id },
         evs ++ dlEv :: writes)
    else if pr.status = str "Failed" then
      (.error (wrapOuter (str "BFL generation failed: " ++
        pr.errorMsg.getD (str "Unknown error"))), evs)
    else
      let r := bflPollLoop env output_path model prompt width height aspect fuel (attempt + 1)
      (r.1, evs ++ r.2)

/-- `BFLClient.generate_image`.  No length validation exists in this
variant; the submit POST is issued first in every run.  Negative prompt,
cfg scale and seed are only logged, never sent.  The non-200 submit handler
has the same swallowed inner `raise` as the Stability one. -/
def bflGenerate (env : BFLEnv) (prompt : List Char)
    (negative_prompt : Option (List Char)) (model aspect : List Char)
    (cfg_scale : Rat) (seed : Option Nat) (output_path : Option (List Char)) :
    Except PyExc BFLResult × List GenEvent :=
  let model := validateBflModel model
  let wh := convertAspectToDimensions aspect
  let submitEv := GenEvent.net .submit ('/' :: model)
  if env.submit.status = 402 then
    (.error (wrapOuter (str "Insufficient BFL credits")), [submitEv])
  else if env.submit.status = 429 then
    (.error (wrapOuter (str "Too many active BFL tasks")), [submitEv])
  else if env.submit.status ≠ 200 then
    (.error (buggyNon200 (str "BFL API Error: ") env.submit.status env.submit.jsonMessage
      env.submit.text), [submitEv])
  else
    let r := bflPollLoop env output_path model prompt wh.1 wh.2 aspect 120 0
    (r.1, submitEv :: r.2)

/-- The error text the tool layer formats for the caller
(`server.py`, the `except` branch of `generate_image_tool`). -/
def serverErrorText (errMsg provider model prompt : List Char) : List Char :=
  str "❌ **Image Generation Failed**\n\n**Error:** " ++ errMsg ++
  str "\n\n**Parameters:**\n- Provider: " ++ provider ++
  str "\n- Model: " ++ model ++
  str "\n- Prompt: " ++ prompt.take 100 ++ str "..."

/-- Number of poll requests in a trace. -/
def countPolls (evs : List GenEvent) : Nat :=
  evs.countP (fun e => match e with | .net .poll _ => true | _ => false)

/-- Number of sleeps in a trace. -/
def countSleeps (evs : List GenEvent) : Nat :=
  evs.countP (fun e => match e with | .sleeping _ => true | _ => false)

/-- Does the trace contain any file write? -/
def hasFileWrite (evs : List GenEvent) : Bool :=
  evs.any (fun e => match e with | .fileWrite _ _ => true | _ => false)

/-- Is the outcome a success value? -/
def isOkB {ε α : Type} : Except ε α → Bool
  | .ok _ => true
  | .error _ => false

/-! Basic lemmas about the string helpers. -/

theorem isPrefixB_iff (p : List Char) : ∀ s : List Char, isPrefixB p s = true ↔ p <+: s := by
  induction p with
  | nil => intro s; simp [isPrefixB]
  | cons a as ih =>
    intro s
    cases s with
    | nil => simp [isPrefixB]
    | cons b bs => simp [isPrefixB, List.cons_prefix_cons, ih, and_comm]

theorem pyReplaceFuel_nil (pat rep : List Char) (f : Nat) :
    pyReplaceFuel pat rep f [] = [] := by
  cases f <;> rfl

theorem pyReplaceFuel_not_contains (pat rep : List Char) :
    ∀ (f : Nat) (s : List Char), s.length ≤ f → containsSub s pat = false →
      pyReplaceFuel pat rep f s = s := by
  intro f
  induction f with
  | zero =>
    intro s hs _
    cases s with
    | nil => rfl
    | cons c rest => simp at hs
  | succ f ih =>
    intro s hs hc
    cases s with
    | nil => rfl
    | cons c rest =>
      have h1 : isPrefixB pat (c :: rest) = false ∧ containsSub rest pat = false := by
        simpa [containsSub, Bool.or_eq_false_iff] using hc
      simp only [pyReplaceFuel]
      rw [if_neg]
      · rw [ih rest (by simp at hs; omega) h1.2]
      · rintro ⟨-, hpre⟩
        rw [h1.1] at hpre
        exact Bool.false_ne_true hpre

theorem pyReplace_not_contains (s pat rep : List Char) (hc : containsSub s pat = false) :
    pyReplace s pat rep = s :=
  pyReplaceFuel_not_contains pat rep s.length s le_rfl hc

/-! C9 and C10. -/

theorem lookupDim_not_mem :
    ∀ (t : List (List Char × (Nat × Nat))) (a : List Char),
      (∀ kv ∈ t, kv.1 ≠ a) → lookupDim t a = none := by
  intro t
  induction t with
  | nil => intro a _; rfl
  | cons kv rest ih =>
    intro a h
    obtain ⟨k, v⟩ := kv
    simp only [lookupDim]
    rw [if_neg (h (k, v) (List.mem_cons_self _ _))]
    exact ih a (fun kv hkv => h kv (List.mem_cons_of_mem _ hkv))

/-- C9: the aspect-ratio table of the BFL backend maps `3:2` to
`(1216, 832)`, and every string outside the nine table keys to the square
default `(1024, 1024)`. -/
theorem claim9_theorem : convertAspectToDimensions (str "3:2") = (1216, 832) ∧
    ∀ a : List Char, a ∉ aspectDimensionTable.map Prod.fst →
      convertAspectToDimensions a = (1024, 1024) := by
  constructor
  · decide
  · intro a ha
    unfold convertAspectToDimensions
    rw [lookupDim_not_mem]
    · rfl
    · intro kv hkv heq
      exact ha (by rw [← heq]; exact List.mem_map_of_mem Prod.fst hkv)

/-- Witness for C9 at the unrecognized ratio string `foo`. -/
theorem claim9_witness : convertAspectToDimensions (str "foo") = (1024, 1024) ∧
    convertAspectToDimensions (str "3:2") = (1216, 832) :=
  ⟨claim9_theorem.2 (str "foo") (by decide), claim9_theorem.1⟩

/-- C10: when the template contains none of the placeholders `Timestamp`,
`Date`, `Time`, the rendered filename does not depend on the clock: two
runs at different instants agree. -/
theorem claim10_theorem (t1 t2 : PyDateTime) (tpl prompt provider model : List Char)
    (counter : Option Nat)
    (h1 : containsSub tpl phTimestamp = false)
    (h2 : containsSub tpl phDate = false)
    (h3 : containsSub tpl phTime = false) :
    apply_filename_template t1 tpl prompt provider model counter =
      apply_filename_template t2 tpl prompt provider model counter := by
  have e1 : ∀ rep, pyReplace tpl phTimestamp rep = tpl :=
    fun rep => pyReplace_not_contains tpl phTimestamp rep h1
  have e2 : ∀ rep, pyReplace tpl phDate rep = tpl :=
    fun rep => pyReplace_not_contains tpl phDate rep h2
  have e3 : ∀ rep, pyReplace tpl phTime rep = tpl :=
    fun rep => pyReplace_not_contains tpl phTime rep h3
  unfold apply_filename_template templateVars
  cases counter <;>
    simp only [List.cons_append, List.nil_append, List.foldl_cons, List.foldl_nil, e1, e2, e3]

/-- Witness for C10: a provider/subject template rendered at two different
clock readings. -/
theorem claim10_witness :
    apply_filename_template ⟨1, 2, 2024, 3, 4, 5⟩ (str "\x7b\x7b.Provider\x7d\x7d-\x7b\x7b.Subject\x7d\x7d")
      (str "a cat") (str "stability") (str "sd3.5-large") none =
    apply_filename_template ⟨6, 7, 2025, 8, 9, 10⟩ (str "\x7b\x7b.Provider\x7d\x7d-\x7b\x7b.Subject\x7d\x7d")
      (str "a cat") (str "stability") (str "sd3.5-large") none :=
  claim10_theorem _ _ _ _ _ _ _ (by decide) (by decide) (by decide)

/-! C1, C2, C3: provider-level error handling, write ordering. -/

/-- The message of an error outcome, if any. -/
def errMsgOf {α : Type} : Except PyExc α → Option (List Char)
  | .error e => some (pyStr e)
  | .ok _ => none

theorem buggyNon200_eq (pfx : List Char) (status : Nat)
    (jm : Option (Option (List Char))) (text : List Char) :
    buggyNon200 pfx status jm text =
      wrapOuter (pfx ++ natChars status ++ str " - " ++ text) := by
  cases jm <;> rfl

/-- A successful Stability response used by closed instances below. -/
def envStabOk : StabilityResponse :=
  { status := 200, jsonMessage := some none, text := [], seedHeader := none,
    content := [1, 2, 3] }

/-- A 400 Stability response whose body parses as JSON with a `message` key. -/
def envStabBad : StabilityResponse :=
  { status := 400, jsonMessage := some (some (str "Invalid SD3 parameter")),
    text := str "body text", seedHeader := none, content := [] }

/-- A pending poll response. -/
def pendingPoll : BFLPollResponse :=
  { httpStatus := 200, status := str "Pending", errorMsg := none, sample := [] }

/-- A BFL environment whose submit is rejected with status 402. -/
def envBfl402 : BFLEnv :=
  { submit := { status := 402, jsonMessage := some none, text := [], id := str "j1" },
    poll := fun _ => pendingPoll,
    download := { httpStatus := 200, content := [7] } }

/-- A 400 submit response whose body parses as JSON with a `message` key. -/
def badSubmit : BFLSubmitResponse :=
  { status := 400, jsonMessage := some (some (str "Invalid SD3 parameter")),
    text := str "body text", id := str "j1" }

/-- A BFL environment whose submit fails with 400 and a parseable message. -/
def envBfl400 : BFLEnv :=
  { submit := badSubmit,
    poll := fun _ => pendingPoll,
    download := { httpStatus := 200, content := [7] } }

/-- C1 counterexample: a BFL call whose prompt has 10001 characters is not
rejected; the submit request goes out (the trace starts with it) and the
outcome is the 402 credit error of the environment, not an input-validation
`ValueError`. -/
theorem claim1_counterexample :
    (List.replicate 10001 'a').length > 10000 ∧
    (bflGenerate envBfl402 (List.replicate 10001 'a') none (str "flux-pro-1.1")
        (str "1:1") 7 none none).2 = [GenEvent.net .submit (str "/flux-pro-1.1")] ∧
    errMsgOf (bflGenerate envBfl402 (List.replicate 10001 'a') none (str "flux-pro-1.1")
        (str "1:1") 7 none none).1 =
      some (str "Failed to generate image: Insufficient BFL credits") := by
  refine ⟨by simp only [List.length_replicate]; omega, by decide, by decide⟩

/-- C1 amended: only the Stability variant rejects an over-long prompt or
negative prompt before any network request (an unwrapped `ValueError`, empty
trace); the BFL variant performs no length validation at all — its trace
begins with the submit request for every prompt. -/
theorem claim1_amended :
    (∀ (env : StabilityResponse) (prompt : List Char) (np : Option (List Char))
        (model aspect : List Char) (cfg : Rat) (seed : Option Nat)
        (out : Option (List Char)), prompt.length > 10000 →
      (stabilityGenerate env prompt np model aspect cfg seed out).1 =
        .error (.valueError (str "Prompt must be 10000 characters or less")) ∧
      (stabilityGenerate env prompt np model aspect cfg seed out).2 = []) ∧
    (∀ (env : StabilityResponse) (prompt : List Char) (np : Option (List Char))
        (model aspect : List Char) (cfg : Rat) (seed : Option Nat)
        (out : Option (List Char)),
      prompt.length ≤ 10000 → pyTruthy np = true → (np.getD []).length > 10000 →
      (stabilityGenerate env prompt np model aspect cfg seed out).1 =
        .error (.valueError (str "Negative prompt must be 10000 characters or less")) ∧
      (stabilityGenerate env prompt np model aspect cfg seed out).2 = []) ∧
    (∀ (env : BFLEnv) (prompt : List Char) (np : Option (List Char))
        (model aspect : List Char) (cfg : Rat) (seed : Option Nat)
        (out : Option (List Char)),
      ∃ rest, (bflGenerate env prompt np model aspect cfg seed out).2 =
        GenEvent.net .submit ('/' :: validateBflModel model) :: rest) := by
  refine ⟨?_, ?_, ?_⟩
  · intro env prompt np model aspect cfg seed out hlen
    constructor <;> (simp only [stabilityGenerate]; rw [if_pos hlen])
  · intro env prompt np model aspect cfg seed out hle htr hlen
    have hnot : ¬ prompt.length > 10000 := by omega
    constructor <;> (simp only [stabilityGenerate]; rw [if_neg hnot, if_pos ⟨htr, hlen⟩])
  · intro env prompt np model aspect cfg seed out
    simp only [bflGenerate]
    split_ifs with h1 h2 h3
    · exact ⟨[], rfl⟩
    · exact ⟨[], rfl⟩
    · exact ⟨[], rfl⟩
    · exact ⟨_, rfl⟩

/-- Witness for C1 amended, at a 10001-character prompt. -/
theorem claim1_witness :
    (stabilityGenerate envStabOk (List.replicate 10001 'a') none (str "sd3.5-large")
        (str "1:1") 7 none none).1 =
      .error (.valueError (str "Prompt must be 10000 characters or less")) ∧
    (stabilityGenerate envStabOk (List.replicate 10001 'a') none (str "sd3.5-large")
        (str "1:1") 7 none none).2 = [] :=
  claim1_amended.1 envStabOk (List.replicate 10001 'a') none (str "sd3.5-large")
    (str "1:1") 7 none none (by simp only [List.length_replicate]; omega)

/-- C2: both providers advertise surfacing the parsed upstream `message` on
a non-200 response, but the inner `raise` carrying it is swallowed by its
own `except Exception`, so the status/text form is raised even when the
body parses with a message.  Evaluated at status 400 with
`message = "Invalid SD3 parameter"` on both variants. -/
theorem claim2_theorem :
    errMsgOf (stabilityGenerate envStabBad (str "hi") none (str "sd3.5-large")
        (str "1:1") 7 none none).1 =
      some (str "Failed to generate image: Stability AI API Error: 400 - body text") ∧
    errMsgOf (stabilityGenerate envStabBad (str "hi") none (str "sd3.5-large")
        (str "1:1") 7 none none).1 ≠
      some (str "Failed to generate image: Stability AI API Error: Invalid SD3 parameter") ∧
    errMsgOf (bflGenerate envBfl400 (str "hi") none (str "flux-pro-1.1")
        (str "1:1") 7 none none).1 =
      some (str "Failed to generate image: BFL API Error: 400 - body text") ∧
    errMsgOf (bflGenerate envBfl400 (str "hi") none (str "flux-pro-1.1")
        (str "1:1") 7 none none).1 ≠
      some (str "Failed to generate image: BFL API Error: Invalid SD3 parameter") := by
  refine ⟨by decide, by decide, by decide, by decide⟩

theorem bflPollLoop_ok_write (env : BFLEnv) (p : List Char) (model prompt : List Char)
    (width height : Nat) (aspect : List Char) :
    ∀ (fuel attempt : Nat),
      isOkB (bflPollLoop env (some p) model prompt width height aspect fuel attempt).1 = true →
      GenEvent.fileWrite p env.download.content ∈
        (bflPollLoop env (some p) model prompt width height aspect fuel attempt).2 := by
  intro fuel
  induction fuel with
  | zero => intro attempt h; simp [bflPollLoop, isOkB] at h
  | succ f ih =>
    intro attempt h
    simp only [bflPollLoop] at h ⊢
    split_ifs at h ⊢
    · simp [isOkB] at h
    · simp [isOkB] at h
    · simp
    · simp [isOkB] at h
    · exact List.mem_append_right _ (ih (attempt + 1) h)

theorem stability_ok_write (env : StabilityResponse) (prompt : List Char)
    (np : Option (List Char)) (model aspect : List Char) (cfg : Rat)
    (seed : Option Nat) (p : List Char)
    (h : isOkB (stabilityGenerate env prompt np model aspect cfg seed (some p)).1 = true) :
    GenEvent.fileWrite p env.content ∈
      (stabilityGenerate env prompt np model aspect cfg seed (some p)).2 := by
  simp only [stabilityGenerate] at h ⊢
  split_ifs at h ⊢ <;> simp [isOkB] at h ⊢

/-- C3 counterexample: with `output_path = None`, the Stability variant
returns a success result although the trace contains no file write. -/
theorem claim3_counterexample :
    isOkB (stabilityGenerate envStabOk (str "hi") none (str "sd3.5-large")
        (str "1:1") 7 none none).1 = true ∧
    hasFileWrite (stabilityGenerate envStabOk (str "hi") none (str "sd3.5-large")
        (str "1:1") 7 none none).2 = false :=
  ⟨by decide, by decide⟩

theorem bflPollLoop_none_no_write (env : BFLEnv) (model prompt : List Char)
    (width height : Nat) (aspect : List Char) :
    ∀ (fuel attempt : Nat),
      hasFileWrite (bflPollLoop env none model prompt width height aspect fuel attempt).2 =
        false := by
  intro fuel
  induction fuel with
  | zero => intro attempt; rfl
  | succ f ih =>
    intro attempt
    simp only [bflPollLoop]
    split_ifs
    · rfl
    · rfl
    · rfl
    · rfl
    · simp only [hasFileWrite, List.any_append, List.any_cons, List.any_nil]
      simp only [hasFileWrite] at ih
      rw [ih (attempt + 1)]
      rfl

/-- C3 amended: when an output path is supplied, either variant returns a
success result only from the branch whose trace has already recorded the
write of the downloaded bytes to that path; with `output_path = None` the
trace of either variant never contains a file write, so the success result
is constructed without any write. -/
theorem claim3_amended :
    (∀ (env : StabilityResponse) (prompt : List Char) (np : Option (List Char))
        (model aspect : List Char) (cfg : Rat) (seed : Option Nat) (p : List Char),
      isOkB (stabilityGenerate env prompt np model aspect cfg seed (some p)).1 = true →
      GenEvent.fileWrite p env.content ∈
        (stabilityGenerate env prompt np model aspect cfg seed (some p)).2) ∧
    (∀ (env : BFLEnv) (prompt : List Char) (np : Option (List Char))
        (model aspect : List Char) (cfg : Rat) (seed : Option Nat) (p : List Char),
      isOkB (bflGenerate env prompt np model aspect cfg seed (some p)).1 = true →
      GenEvent.fileWrite p env.download.content ∈
        (bflGenerate env prompt np model aspect cfg seed (some p)).2) ∧
    (∀ (env : StabilityResponse) (prompt : List Char) (np : Option (List Char))
        (model aspect : List Char) (cfg : Rat) (seed : Option Nat),
      hasFileWrite (stabilityGenerate env prompt np model aspect cfg seed none).2 =
        false) ∧
    (∀ (env : BFLEnv) (prompt : List Char) (np : Option (List Char))
        (model aspect : List Char) (cfg : Rat) (seed : Option Nat),
      hasFileWrite (bflGenerate env prompt np model aspect cfg seed none).2 = false) := by
  refine ⟨?_, ?_, ?_, ?_⟩
  · exact fun env prompt np model aspect cfg seed p h =>
      stability_ok_write env prompt np model aspect cfg seed p h
  · intro env prompt np model aspect cfg seed p h
    simp only [bflGenerate] at h ⊢
    split_ifs at h ⊢
    · simp [isOkB] at h
    · simp [isOkB] at h
    · simp [isOkB] at h
    · exact List.mem_cons_of_mem _
        (bflPollLoop_ok_write env p _ prompt _ _ aspect 120 0 h)
  · intro env prompt np model aspect cfg seed
    simp only [stabilityGenerate]
    split_ifs <;> rfl
  · intro env prompt np model aspect cfg seed
    simp only [bflGenerate]
    split_ifs
    · rfl
    · rfl
    · rfl
    · simp only [hasFileWrite, List.any_cons]
      have h := bflPollLoop_none_no_write env (validateBflModel model) prompt
        (convertAspectToDimensions aspect).1 (convertAspectToDimensions aspect).2
        aspect 120 0
      simp only [hasFileWrite] at h
      rw [h]
      rfl

/-- A BFL environment whose first poll is `Ready` and whose download succeeds. -/
def readyPoll : BFLPollResponse :=
  { httpStatus := 200, status := str "Ready", errorMsg := none, sample := str "https://u" }

/-- A BFL environment that succeeds on the first poll. -/
def envBflReady : BFLEnv :=
  { submit := { status := 200, jsonMessage := some none, text := [], id := str "j1" },
    poll := fun _ => readyPoll,
    download := { httpStatus := 200, content := [1, 2] } }

/-- Witness for C3 amended: successful runs of both variants with a concrete
output path record the write in their traces. -/
theorem claim3_witness :
    GenEvent.fileWrite (str "d/x.png") envStabOk.content ∈
      (stabilityGenerate envStabOk (str "hi") none (str "sd3.5-large") (str "1:1")
        7 none (some (str "d/x.png"))).2 ∧
    GenEvent.fileWrite (str "d/y.png") envBflReady.download.content ∈
      (bflGenerate envBflReady (str "hi") none (str "flux-pro-1.1") (str "1:1")
        7 none (some (str "d/y.png"))).2 :=
  ⟨claim3_amended.1 envStabOk (str "hi") none (str "sd3.5-large") (str "1:1")
    7 none (str "d/x.png") (by decide),
   claim3_amended.2.1 envBflReady (str "hi") none (str "flux-pro-1.1") (str "1:1")
    7 none (str "d/y.png") (by decide)⟩

/-! C4 and C5: the polling loop. -/

/-- Poll `i` succeeded at the HTTP level and reported a non-terminal status. -/
def pollOkPending (env : BFLEnv) (i : Nat) : Prop :=
  (env.poll i).httpStatus < 400 ∧ (env.poll i).status ≠ str "Ready" ∧
    (env.poll i).status ≠ str "Failed"

theorem bflPollLoop_counts (env : BFLEnv) (out : Option (List Char))
    (model prompt : List Char) (width height : Nat) (aspect : List Char) :
    ∀ (fuel attempt : Nat),
      countPolls (bflPollLoop env out model prompt width height aspect fuel attempt).2 ≤ fuel ∧
      countSleeps (bflPollLoop env out model prompt width height aspect fuel attempt).2 =
        countPolls (bflPollLoop env out model prompt width height aspect fuel attempt).2 ∧
      ∀ s, GenEvent.sleeping s ∈
        (bflPollLoop env out model prompt width height aspect fuel attempt).2 → s = 1 := by
  intro fuel
  induction fuel with
  | zero =>
    intro attempt
    refine ⟨by simp [bflPollLoop, countPolls], by simp [bflPollLoop, countPolls, countSleeps],
      by simp [bflPollLoop]⟩
  | succ f ih =>
    intro attempt
    obtain ⟨ihc, ihs, ihm⟩ := ih (attempt + 1)
    simp only [bflPollLoop]
    split_ifs with h1 h2 h3 h4
    · refine ⟨by simp [countPolls], by simp [countPolls, countSleeps], ?_⟩
      intro s hs
      simp [List.mem_cons] at hs
      exact hs
    · refine ⟨by simp [countPolls], by simp [countPolls, countSleeps], ?_⟩
      intro s hs
      simp [List.mem_cons, List.mem_append] at hs
      exact hs
    · cases out with
      | none =>
        refine ⟨by simp [countPolls], by simp [countPolls, countSleeps], ?_⟩
        intro s hs
        simp [List.mem_cons, List.mem_append] at hs
        exact hs
      | some p =>
        refine ⟨by simp [countPolls], by simp [countPolls, countSleeps], ?_⟩
        intro s hs
        simp [List.mem_cons, List.mem_append] at hs
        exact hs
    · refine ⟨by simp [countPolls], by simp [countPolls, countSleeps], ?_⟩
      intro s hs
      simp [List.mem_cons] at hs
      exact hs
    · refine ⟨?_, ?_, ?_⟩
      · simp only [countPolls] at ihc ⊢
        simp [List.countP_append, List.countP_cons]
        omega
      · simp only [countPolls, countSleeps] at ihs ⊢
        simp [List.countP_append, List.countP_cons]
        omega
      · intro s hs
        simp [List.mem_cons, List.mem_append] at hs
        rcases hs with hs | hs
        · exact hs
        · exact ihm s hs

theorem bflPollLoop_timeout (env : BFLEnv) (out : Option (List Char))
    (model prompt : List Char) (width height : Nat) (aspect : List Char) :
    ∀ (fuel attempt : Nat),
      (∀ i, i < fuel → pollOkPending env (attempt + i + 1)) →
      (bflPollLoop env out model prompt width height aspect fuel attempt).1 =
        .error (wrapOuter (str "BFL generation timed out after 120 seconds")) := by
  intro fuel
  induction fuel with
  | zero => intro attempt _; rfl
  | succ f ih =>
    intro attempt h
    have h0 : pollOkPending env (attempt + 1) := by
      have := h 0 (Nat.succ_pos f)
      simpa using this
    simp only [bflPollLoop]
    rw [if_neg (Nat.not_le.mpr h0.1), if_neg h0.2.1, if_neg h0.2.2]
    exact ih (attempt + 1) (fun i hi => by
      have e : attempt + 1 + i + 1 = attempt + (i + 1) + 1 := by omega
      rw [e]
      exact h (i + 1) (by omega))

theorem bflPollLoop_failed (env : BFLEnv) (out : Option (List Char))
    (model prompt : List Char) (width height : Nat) (aspect : List Char) :
    ∀ (k fuel attempt : Nat), k < fuel →
      (∀ i, i < k → pollOkPending env (attempt + i + 1)) →
      (env.poll (attempt + k + 1)).httpStatus < 400 →
      (env.poll (attempt + k + 1)).status = str "Failed" →
      (bflPollLoop env out model prompt width height aspect fuel attempt).1 =
        .error (wrapOuter (str "BFL generation failed: " ++
          ((env.poll (attempt + k + 1)).errorMsg.getD (str "Unknown error")))) ∧
      hasFileWrite (bflPollLoop env out model prompt width height aspect fuel attempt).2 =
        false := by
  intro k
  induction k with
  | zero =>
    intro fuel attempt hk hbefore hhttp hst
    obtain ⟨f, rfl⟩ : ∃ f, fuel = f + 1 := ⟨fuel - 1, by omega⟩
    have hne : (env.poll (attempt + 0 + 1)).status ≠ str "Ready" := by
      rw [hst]; decide
    simp only [bflPollLoop]
    rw [if_neg (by simpa using Nat.not_le.mpr hhttp), if_neg (by simpa using hne),
      if_pos (by simpa using hst)]
    refine ⟨by simpa using rfl, by simp [hasFileWrite]⟩
  | succ k ih =>
    intro fuel attempt hk hbefore hhttp hst
    obtain ⟨f, rfl⟩ : ∃ f, fuel = f + 1 := ⟨fuel - 1, by omega⟩
    have h0 : pollOkPending env (attempt + 1) := by
      have := hbefore 0 (Nat.succ_pos k)
      simpa using this
    have e : attempt + 1 + k + 1 = attempt + (k + 1) + 1 := by omega
    have hrec := ih f (attempt + 1) (by omega)
      (fun i hi => by
        have e2 : attempt + 1 + i + 1 = attempt + (i + 1) + 1 := by omega
        rw [e2]
        exact hbefore (i + 1) (by omega))
      (by rw [e]; exact hhttp) (by rw [e]; exact hst)
    simp only [bflPollLoop]
    rw [if_neg (Nat.not_le.mpr h0.1), if_neg h0.2.1, if_neg h0.2.2]
    constructor
    · show (bflPollLoop env out model prompt width height aspect f (attempt + 1)).1 = _
      rw [hrec.1, e]
    · simp only [hasFileWrite, List.any_append, List.any_cons, List.any_nil]
      simp only [hasFileWrite] at hrec
      rw [hrec.2]
      rfl

theorem timeout_ne_failed (m : List Char) :
    wrapOuter (str "BFL generation timed out after 120 seconds") ≠
      wrapOuter (str "BFL generation failed: " ++ m) := by
  intro h
  have h2 : str "BFL generation timed out after 120 seconds" =
      str "BFL generation failed: " ++ m := by
    have := h
    simp only [wrapOuter, PyExc.runtimeError.injEq] at this
    exact List.append_cancel_left this
  have h3 : (str "BFL generation timed out after 120 seconds")[15]? =
      (str "BFL generation failed: " ++ m)[15]? := by rw [h2]
  rw [List.getElem?_append_left (by decide)] at h3
  exact absurd h3 (by decide)

/-- C4: over every environment, the BFL run issues at most 120 polls, one
sleep of one second per poll; if the submit succeeds and no poll in the
budget is terminal, the outcome is the timeout error, whose wording
differs from every job-failure error. -/
theorem claim4_theorem (env : BFLEnv) (prompt : List Char) (np : Option (List Char))
    (model aspect : List Char) (cfg : Rat) (seed : Option Nat)
    (out : Option (List Char)) :
    countPolls (bflGenerate env prompt np model aspect cfg seed out).2 ≤ 120 ∧
    countSleeps (bflGenerate env prompt np model aspect cfg seed out).2 =
      countPolls (bflGenerate env prompt np model aspect cfg seed out).2 ∧
    (∀ s, GenEvent.sleeping s ∈ (bflGenerate env prompt np model aspect cfg seed out).2 →
      s = 1) ∧
    (env.submit.status = 200 →
      (∀ i, i < 120 → pollOkPending env (i + 1)) →
      (bflGenerate env prompt np model aspect cfg seed out).1 =
        .error (wrapOuter (str "BFL generation timed out after 120 seconds"))) ∧
    (∀ m, wrapOuter (str "BFL generation timed out after 120 seconds") ≠
      wrapOuter (str "BFL generation failed: " ++ m)) := by
  obtain ⟨hc, hs, hm⟩ := bflPollLoop_counts env out (validateBflModel model) prompt
    (convertAspectToDimensions aspect).1 (convertAspectToDimensions aspect).2 aspect 120 0
  refine ⟨?_, ?_, ?_, ?_, timeout_ne_failed⟩
  · simp only [bflGenerate]
    split_ifs
    · simp [countPolls]
    · simp [countPolls]
    · simp [countPolls]
    · simp only [countPolls, List.countP_cons]
      simp only [countPolls] at hc
      simpa using hc
  · simp only [bflGenerate]
    split_ifs
    · simp [countPolls, countSleeps]
    · simp [countPolls, countSleeps]
    · simp [countPolls, countSleeps]
    · simp only [countPolls, countSleeps, List.countP_cons]
      simp only [countPolls, countSleeps] at hs
      simpa using hs
  · simp only [bflGenerate]
    split_ifs
    · intro s hs2; simp [List.mem_cons] at hs2
    · intro s hs2; simp [List.mem_cons] at hs2
    · intro s hs2; simp [List.mem_cons] at hs2
    · intro s hs2
      simp only [List.mem_cons] at hs2
      rcases hs2 with hs2 | hs2
      · exact absurd hs2 (by simp)
      · exact hm s hs2
  · intro hsub hpoll
    have h402 : ¬ env.submit.status = 402 := by omega
    have h429 : ¬ env.submit.status = 429 := by omega
    have h200 : ¬ env.submit.status ≠ 200 := by omega
    simp only [bflGenerate]
    rw [if_neg h402, if_neg h429, if_neg h200]
    exact bflPollLoop_timeout env out (validateBflModel model) prompt
      (convertAspectToDimensions aspect).1 (convertAspectToDimensions aspect).2 aspect 120 0
      (fun i hi => by simpa using hpoll i hi)

/-- A BFL environment that always reports a pending status. -/
def envBflPending : BFLEnv :=
  { submit := { status := 200, jsonMessage := some none, text := [], id := str "j1" },
    poll := fun _ => pendingPoll,
    download := { httpStatus := 200, content := [7] } }

/-- Witness for C4: an always-pending environment yields the timeout error
and at most 120 polls. -/
theorem claim4_witness :
    (bflGenerate envBflPending (str "hi") none (str "flux-pro-1.1") (str "1:1")
        7 none none).1 =
      .error (wrapOuter (str "BFL generation timed out after 120 seconds")) ∧
    countPolls (bflGenerate envBflPending (str "hi") none (str "flux-pro-1.1") (str "1:1")
        7 none none).2 ≤ 120 :=
  have h := claim4_theorem envBflPending (str "hi") none (str "flux-pro-1.1") (str "1:1")
    7 none none
  ⟨h.2.2.2.1 rfl (fun i _ => by
    change (200 : Nat) < 400 ∧ str "Pending" ≠ str "Ready" ∧ str "Pending" ≠ str "Failed"
    exact ⟨by decide, by decide, by decide⟩), h.1⟩

/-- C5: when poll `k + 1` reports status `Failed` with an error message
(after `k` non-terminal polls), the run fails with an error whose text ends
in that exact message, the trace contains no file write, and the tool-layer
error response contains the message as a substring. -/
theorem claim5_theorem (env : BFLEnv) (prompt : List Char) (np : Option (List Char))
    (model aspect : List Char) (cfg : Rat) (seed : Option Nat)
    (out : Option (List Char)) (k : Nat) (m : List Char)
    (hsub : env.submit.status = 200) (hk : k < 120)
    (hbefore : ∀ i, i < k → pollOkPending env (i + 1))
    (hhttp : (env.poll (k + 1)).httpStatus < 400)
    (hst : (env.poll (k + 1)).status = str "Failed")
    (herr : (env.poll (k + 1)).errorMsg = some m) :
    (bflGenerate env prompt np model aspect cfg seed out).1 =
      .error (.runtimeError (str "Failed to generate image: BFL generation failed: " ++ m)) ∧
    hasFileWrite (bflGenerate env prompt np model aspect cfg seed out).2 = false ∧
    m <:+: serverErrorText (str "Failed to generate image: BFL generation failed: " ++ m)
      (str "bfl") model prompt := by
  have h402 : ¬ env.submit.status = 402 := by omega
  have h429 : ¬ env.submit.status = 429 := by omega
  have h200 : ¬ env.submit.status ≠ 200 := by omega
  have hloop := bflPollLoop_failed env out (validateBflModel model) prompt
    (convertAspectToDimensions aspect).1 (convertAspectToDimensions aspect).2 aspect
    k 120 0 hk (fun i hi => by simpa using hbefore i hi) (by simpa using hhttp)
    (by simpa using hst)
  refine ⟨?_, ?_, ?_⟩
  · simp only [bflGenerate]
    rw [if_neg h402, if_neg h429, if_neg h200]
    show (bflPollLoop env out (validateBflModel model) prompt
      (convertAspectToDimensions aspect).1 (convertAspectToDimensions aspect).2 aspect 120 0).1 = _
    rw [hloop.1]
    have e : (env.poll (0 + k + 1)).errorMsg = some m := by simpa using herr
    rw [e]
    simp only [wrapOuter, Option.getD, Except.error.injEq, PyExc.runtimeError.injEq]
    rw [← List.append_assoc]
    exact congrArg (fun l => l ++ m) (by decide)
  · simp only [bflGenerate]
    rw [if_neg h402, if_neg h429, if_neg h200]
    simp only [hasFileWrite, List.any_cons]
    simp only [hasFileWrite] at hloop
    rw [hloop.2]
    rfl
  · refine ⟨str "❌ **Image Generation Failed**\n\n**Error:** " ++
      str "Failed to generate image: BFL generation failed: ", ?_, ?_⟩
    · exact str "\n\n**Parameters:**\n- Provider: " ++ str "bfl" ++
        str "\n- Model: " ++ model ++ str "\n- Prompt: " ++ prompt.take 100 ++ str "..."
    · simp [serverErrorText, List.append_assoc]

/-- A `Failed` poll response carrying the NSFW message. -/
def nsfwPoll : BFLPollResponse :=
  { httpStatus := 200, status := str "Failed",
    errorMsg := some (str "NSFW content detected"), sample := [] }

/-- A BFL environment whose first poll reports `Failed` with the NSFW message. -/
def envBflNsfw : BFLEnv :=
  { submit := { status := 200, jsonMessage := some none, text := [], id := str "j1" },
    poll := fun _ => nsfwPoll,
    download := { httpStatus := 200, content := [7] } }

/-- Witness for C5 at the spec scenario message `NSFW content detected`. -/
theorem claim5_witness :
    (bflGenerate envBflNsfw (str "hi") none (str "flux-pro-1.1") (str "1:1") 7 none
        (some (str "d/x.png"))).1 =
      .error (.runtimeError (str "Failed to generate image: BFL generation failed: " ++
        str "NSFW content detected")) ∧
    hasFileWrite (bflGenerate envBflNsfw (str "hi") none (str "flux-pro-1.1") (str "1:1")
        7 none (some (str "d/x.png"))).2 = false :=
  have h := claim5_theorem envBflNsfw (str "hi") none (str "flux-pro-1.1") (str "1:1")
    7 none (some (str "d/x.png")) 0 (str "NSFW content detected") rfl (by omega)
    (fun i hi => absurd hi (Nat.not_lt_zero i)) (by decide) (by decide) (by decide)
  ⟨h.1, h.2.1⟩

/-! C6: determinism and collision resolution of `generate_filename`. -/

theorem memB_iff (l : List (List Char)) (x : List Char) : memB l x = true ↔ x ∈ l := by
  simp [memB, List.any_eq_true]

theorem pyStem_append_pySuffix (n : List Char) : pyStem n ++ pySuffix n = n := by
  unfold pyStem pySuffix
  cases h : rfindDot n with
  | none => simp
  | some i =>
    by_cases hc : 0 < i ∧ i + 1 < n.length
    · simp only [if_pos hc, List.take_append_drop]
    · simp only [if_neg hc, List.append_nil]

theorem rev_split (l : List Char) (h : '/' ∈ l) :
    l = l.takeWhile (fun c => c ≠ '/') ++ '/' :: (l.dropWhile (fun c => c ≠ '/')).tail := by
  induction l with
  | nil => cases h
  | cons c rest ih =>
    by_cases hc : c = '/'
    · subst hc
      simp [List.takeWhile_cons, List.dropWhile_cons]
    · have h2 : '/' ∈ rest := by
        rcases List.mem_cons.mp h with h3 | h3
        · exact absurd h3.symm hc
        · exact h3
      simpa [List.takeWhile_cons, List.dropWhile_cons, hc] using ih h2

theorem path_decomp (p : List Char) (h : '/' ∈ p) :
    p = pathParent p ++ '/' :: pathName p := by
  unfold pathParent pathName
  conv_lhs => rw [← List.reverse_reverse p, rev_split p.reverse (List.mem_reverse.mpr h)]
  rw [List.drop_one]
  simp [List.reverse_append]

/-- C6 amended: with a fixed clock and filesystem, `generate_filename` is a
pure function (identical calls agree); once the computed path exists on
disk, the next call returns a different path with `_001` inserted between
the Python stem and suffix of the name — before the `.extension` whenever
the rendered base name is non-empty and dot-free apart from the appended
extension, but after it in degenerate cases (see the counterexample). -/
theorem claim6_amended (now : PyDateTime) (tpl prompt provider model dir ext : List Char)
    (ctr : Option Nat) :
    generate_filename [] now tpl prompt provider model dir ext ctr =
      generate_filename [] now tpl prompt provider model dir ext ctr ∧
    generate_filename [generate_filename [] now tpl prompt provider model dir ext ctr]
        now tpl prompt provider model dir ext ctr =
      pathJoin (pathParent (generate_filename [] now tpl prompt provider model dir ext ctr))
        (pyStem (pathName (generate_filename [] now tpl prompt provider model dir ext ctr)) ++
          str "_001" ++
          pySuffix (pathName (generate_filename [] now tpl prompt provider model dir ext ctr))) ∧
    generate_filename [generate_filename [] now tpl prompt provider model dir ext ctr]
        now tpl prompt provider model dir ext ctr ≠
      generate_filename [] now tpl prompt provider model dir ext ctr := by
  have h001 : ('_' : Char) :: padNum 3 1 = str "_001" := by decide
  have hB : generate_filename [] now tpl prompt provider model dir ext ctr =
      pathJoin dir (finalBaseName now tpl prompt provider model ext ctr) := by
    unfold generate_filename
    rw [if_neg]
    simp [memB]
  set p := generate_filename [] now tpl prompt provider model dir ext ctr with hp
  have hslash : '/' ∈ p := by
    rw [hB]
    exact List.mem_append_right _ (List.mem_cons_self _ _)
  have hdecomp := path_decomp p hslash
  have hname := pyStem_append_pySuffix (pathName p)
  have hcand_ne : pathJoin (pathParent p)
      (pyStem (pathName p) ++ str "_001" ++ pySuffix (pathName p)) ≠ p := by
    intro hEq
    unfold pathJoin at hEq
    have h2 := List.append_cancel_left (hEq.trans hdecomp)
    have h3 : pyStem (pathName p) ++ (str "_001" ++ pySuffix (pathName p)) =
        pyStem (pathName p) ++ pySuffix (pathName p) := by
      rw [← List.append_assoc]
      exact (List.cons.inj h2).2.trans hname.symm
    have h4 := List.append_cancel_left h3
    have h5 := congrArg List.length h4
    simp at h5
    exact absurd h5 (by decide)
  have hsecond : generate_filename [p] now tpl prompt provider model dir ext ctr =
      pathJoin (pathParent p)
        (pyStem (pathName p) ++ str "_001" ++ pySuffix (pathName p)) := by
    unfold generate_filename
    rw [if_pos]
    · show resolveConflict [p] (pathParent p) (pyStem (pathName p)) (pySuffix (pathName p))
        ([p].length + 1) 1 = _
      simp only [List.length_cons, List.length_nil]
      simp only [resolveConflict]
      rw [h001]
      rw [if_neg]
      simp only [memB, List.any_cons, List.any_nil, Bool.or_false, decide_eq_true_eq]
      intro hmem
      exact hcand_ne (by rw [← hmem])
    · rw [← hB]
      simp [memB]
  exact ⟨rfl, hsecond, by rw [hsecond]; exact hcand_ne⟩

/-- C6 counterexample: with the empty template the rendered base name is
empty and the computed name is `.png`, which Python's `Path.stem`/`suffix`
split treats as a dot-file with no extension; the collision path is then
`d/.png_001`, so the `_001` lands after `.png` rather than before the
extension as the claim states. -/
theorem claim6_counterexample :
    generate_filename [] ⟨1, 2, 2025, 3, 4, 5⟩ (str "") (str "p") (str "s") (str "m")
      (str "d") (str "png") none = str "d/.png" ∧
    generate_filename [str "d/.png"] ⟨1, 2, 2025, 3, 4, 5⟩ (str "") (str "p") (str "s")
      (str "m") (str "d") (str "png") none = str "d/.png_001" ∧
    isSuffixB (str "_001.png") (str "d/.png_001") = false :=
  ⟨by decide, by decide, by decide⟩

/-! C7: `extract_subject` always yields a non-empty string of at most 50
characters over `[a-z0-9_]`. -/

/-- The characters the claim allows in a subject: `[a-z0-9_]`. -/
def allowedCharB (c : Char) : Bool := isAsciiLowerB c || isAsciiDigitB c || c = '_'

theorem char_toNat_ofNat_valid (n : Nat) (h : n < 55296) : (Char.ofNat n).toNat = n := by
  rw [Char.ofNat, dif_pos (Or.inl h)]
  rfl

theorem toLower_not_upper (c : Char) : isAsciiUpperB (Char.toLower c) = false := by
  simp only [Char.toLower]
  split
  next h =>
    have hv : c.toNat + 32 < 55296 := by omega
    simp only [isAsciiUpperB, char_toNat_ofNat_valid _ hv, Bool.and_eq_false_iff,
      decide_eq_false_iff_not]
    omega
  next h =>
    simp only [isAsciiUpperB, Bool.and_eq_false_iff, decide_eq_false_iff_not]
    omega

theorem pyLower_no_upper (s : List Char) : ∀ c ∈ pyLower s, isAsciiUpperB c = false := by
  intro c hc
  rw [pyLower] at hc
  obtain ⟨a, _, rfl⟩ := List.mem_map.mp hc
  exact toLower_not_upper a

theorem wordRunsAux_chars (s : List Char) :
    ∀ (acc w : List Char), w ∈ wordRunsAux s acc → ∀ c ∈ w, c ∈ s ∨ c ∈ acc := by
  induction s with
  | nil =>
    intro acc w hw c hcw
    unfold wordRunsAux at hw
    by_cases h : acc.isEmpty = true
    · rw [if_pos h] at hw
      cases hw
    · rw [if_neg h] at hw
      rw [List.mem_singleton] at hw
      subst hw
      right
      exact List.mem_reverse.mp hcw
  | cons a rest ih =>
    intro acc w hw c hcw
    unfold wordRunsAux at hw
    by_cases h1 : isWordCharB a = true
    · rw [if_pos h1] at hw
      rcases ih (a :: acc) w hw c hcw with h | h
      · left; exact List.mem_cons_of_mem _ h
      · rcases List.mem_cons.mp h with h | h
        · left; rw [h]; exact List.mem_cons_self _ _
        · right; exact h
    · rw [if_neg h1] at hw
      by_cases h2 : acc.isEmpty = true
      · rw [if_pos h2] at hw
        rcases ih [] w hw c hcw with h | h
        · left; exact List.mem_cons_of_mem _ h
        · cases h
      · rw [if_neg h2] at hw
        rcases List.mem_cons.mp hw with h | h
        · subst h
          right
          exact List.mem_reverse.mp hcw
        · rcases ih [] w h c hcw with h3 | h3
          · left; exact List.mem_cons_of_mem _ h3
          · cases h3

theorem findLetterWords_chars (s : List Char) :
    ∀ w ∈ findLetterWords s, ∀ c ∈ w, isAsciiAlphaB c = true ∧ c ∈ s := by
  intro w hw c hcw
  unfold findLetterWords at hw
  obtain ⟨hw1, hw2⟩ := List.mem_filter.mp hw
  refine ⟨List.all_eq_true.mp hw2 c hcw, ?_⟩
  rcases wordRunsAux_chars s [] w hw1 c hcw with h | h
  · exact h
  · cases h

theorem stripFirstPrefix_subset :
    ∀ (l : List (List Char)) (s : List Char), ∀ c ∈ stripFirstPrefix l s, c ∈ s := by
  intro l
  induction l with
  | nil => intro s c hc; exact hc
  | cons p rest ih =>
    intro s c hc
    unfold stripFirstPrefix at hc
    by_cases h : isPrefixB p s = true
    · rw [if_pos h] at hc
      exact List.drop_subset _ _ hc
    · rw [if_neg h] at hc
      exact ih s c hc

theorem stripFirstSuffix_subset :
    ∀ (l : List (List Char)) (s : List Char), ∀ c ∈ stripFirstSuffix l s, c ∈ s := by
  intro l
  induction l with
  | nil => intro s c hc; exact hc
  | cons p rest ih =>
    intro s c hc
    unfold stripFirstSuffix at hc
    by_cases h : isSuffixB p s = true
    · rw [if_pos h] at hc
      exact List.take_subset _ _ hc
    · rw [if_neg h] at hc
      exact ih s c hc

theorem joinUnderscore_chars :
    ∀ (ws : List (List Char)) (c : Char), c ∈ joinUnderscore ws →
      (∃ w ∈ ws, c ∈ w) ∨ c = '_' := by
  intro ws
  induction ws with
  | nil => intro c hc; cases hc
  | cons w ws ih =>
    intro c hc
    cases ws with
    | nil =>
      left
      exact ⟨w, List.mem_cons_self _ _, hc⟩
    | cons w2 ws2 =>
      rw [show joinUnderscore (w :: w2 :: ws2) = w ++ '_' :: joinUnderscore (w2 :: ws2)
        from rfl] at hc
      rcases List.mem_append.mp hc with h | h
      · left; exact ⟨w, List.mem_cons_self _ _, h⟩
      · rcases List.mem_cons.mp h with h | h
        · right; exact h
        · rcases ih c h with ⟨w3, hw3, hcw3⟩ | h3
          · left; exact ⟨w3, List.mem_cons_of_mem _ hw3, hcw3⟩
          · right; exact h3

theorem subjectWords_chars (prompt : List Char) :
    ∀ w ∈ subjectWords prompt, ∀ c ∈ w, allowedCharB c = true := by
  intro w hw c hcw
  have hwords : w ∈ findLetterWords (cleanedPrompt prompt) := by
    simp only [subjectWords] at hw
    split at hw
    · exact List.filter_subset' _ (List.take_subset _ _ hw)
    · exact List.take_subset _ _ hw
  obtain ⟨halpha, hmem⟩ := findLetterWords_chars (cleanedPrompt prompt) w hwords c hcw
  have hlowered : c ∈ pyLower prompt := by
    unfold cleanedPrompt at hmem
    exact stripFirstPrefix_subset _ _ c (stripFirstSuffix_subset _ _ c hmem)
  have hnotup : isAsciiUpperB c = false := pyLower_no_upper prompt c hlowered
  unfold allowedCharB
  unfold isAsciiAlphaB at halpha
  rw [hnotup] at halpha
  simp only [Bool.false_or] at halpha
  rw [halpha]
  rfl

/-- The full `extract_subject` contract, shared by the claims below. -/
theorem extract_subject_spec (prompt : List Char) :
    extract_subject prompt 50 ≠ [] ∧
    (extract_subject prompt 50).length ≤ 50 ∧
    (extract_subject prompt 50).all allowedCharB = true := by
  have hchars : ∀ c ∈ joinUnderscore (subjectWords prompt), allowedCharB c = true := by
    intro c hc
    rcases joinUnderscore_chars (subjectWords prompt) c hc with ⟨w, hw, hcw⟩ | h
    · exact subjectWords_chars prompt w hw c hcw
    · rw [h]; rfl
  simp only [extract_subject]
  by_cases hlen : (joinUnderscore (subjectWords prompt)).length > 50
  · rw [if_pos hlen]
    by_cases hem : ((joinUnderscore (subjectWords prompt)).take 50).isEmpty = true
    · rw [if_pos hem]
      exact ⟨by decide, by decide, by decide⟩
    · rw [if_neg hem]
      refine ⟨by simpa [List.isEmpty_iff] using hem, by simp, ?_⟩
      rw [List.all_eq_true]
      exact fun c hc => hchars c (List.take_subset _ _ hc)
  · rw [if_neg hlen]
    by_cases hem : (joinUnderscore (subjectWords prompt)).isEmpty = true
    · rw [if_pos hem]
      exact ⟨by decide, by decide, by decide⟩
    · rw [if_neg hem]
      refine ⟨by simpa [List.isEmpty_iff] using hem, by omega, ?_⟩
      rw [List.all_eq_true]
      exact fun c hc => hchars c hc

/-- The fixed clock used by concrete `generate_filename` instances. -/
def c6now : PyDateTime := ⟨1, 2, 2025, 3, 4, 5⟩

/-- Witness for C6 amended at a concrete literal template. -/
theorem claim6_witness :
    generate_filename [generate_filename [] c6now (str "x") (str "p") (str "s") (str "m")
        (str "d") (str "png") none] c6now (str "x") (str "p") (str "s") (str "m")
      (str "d") (str "png") none ≠
    generate_filename [] c6now (str "x") (str "p") (str "s") (str "m")
      (str "d") (str "png") none :=
  (claim6_amended c6now (str "x") (str "p") (str "s") (str "m") (str "d")
    (str "png") none).2.2

/-- C7: for every prompt, `extract_subject` returns a non-empty string of
at most 50 characters consisting only of characters in `[a-z0-9_]`. -/
theorem claim7_theorem (prompt : List Char) :
    extract_subject prompt 50 ≠ [] ∧
    (extract_subject prompt 50).length ≤ 50 ∧
    (extract_subject prompt 50).all allowedCharB = true :=
  extract_subject_spec prompt

/-- Witness for C7 at a concrete prompt. -/
theorem claim7_witness :
    extract_subject (str "A serene mountain landscape at sunset") 50 ≠ [] ∧
    (extract_subject (str "A serene mountain landscape at sunset") 50).length ≤ 50 ∧
    (extract_subject (str "A serene mountain landscape at sunset") 50).all
      allowedCharB = true :=
  claim7_theorem (str "A serene mountain landscape at sunset")

/-! C8: templates built from recognized placeholders leave no brace residue
when the substituted values are brace-free. -/

/-- A string with no brace characters. -/
def braceFreeL (s : List Char) : Prop := ∀ c ∈ s, c ≠ '{' ∧ c ≠ '}'

/-- The eight recognized placeholder patterns, in substitution order. -/
def recognizedPHs : List (List Char) :=
  [phTimestamp, phDate, phTime, phProvider, phModel, phSubject, phHash, phCounter]

/-- A template made of brace-free literal characters and recognized blocks
drawn from `S`.  `MixedTpl recognizedPHs` captures the claim phrase
`containing only recognized placeholders`: every brace belongs to a
recognized placeholder occurrence. -/
inductive MixedTpl (S : List (List Char)) : List Char → Prop
  | nil : MixedTpl S []
  | lit {c : Char} {rest : List Char} :
      c ≠ '{' → c ≠ '}' → MixedTpl S rest → MixedTpl S (c :: rest)
  | block {b rest : List Char} :
      b ∈ S → MixedTpl S rest → MixedTpl S (b ++ rest)

theorem braceFree_nil : braceFreeL [] := by
  intro c hc
  cases hc

theorem braceFree_cons {c : Char} {s : List Char} (h1 : c ≠ '{') (h2 : c ≠ '}')
    (h : braceFreeL s) : braceFreeL (c :: s) := by
  intro x hx
  rcases List.mem_cons.mp hx with hx | hx
  · rw [hx]; exact ⟨h1, h2⟩
  · exact h x hx

theorem braceFree_append {a b : List Char} (ha : braceFreeL a) (hb : braceFreeL b) :
    braceFreeL (a ++ b) := by
  intro x hx
  rcases List.mem_append.mp hx with hx | hx
  · exact ha x hx
  · exact hb x hx

theorem braceFree_of_subset {a b : List Char} (hs : ∀ c ∈ a, c ∈ b)
    (hb : braceFreeL b) : braceFreeL a :=
  fun c hc => hb c (hs c hc)

theorem braceFree_of_toNat_le {c : Char} (h : c.toNat ≤ 122) : c ≠ '{' ∧ c ≠ '}' := by
  constructor <;> intro hEq <;> subst hEq <;> simp at h

theorem braceFree_digitChar (n : Nat) : digitChar n ≠ '{' ∧ digitChar n ≠ '}' := by
  have hv : 48 + n % 10 < 55296 := by omega
  apply braceFree_of_toNat_le
  rw [digitChar, char_toNat_ofNat_valid _ hv]
  omega

theorem braceFree_natCharsAux : ∀ (f n : Nat), braceFreeL (natCharsAux f n) := by
  intro f
  induction f with
  | zero => intro n; exact braceFree_nil
  | succ f ih =>
    intro n
    unfold natCharsAux
    split
    · exact braceFree_cons (braceFree_digitChar n).1 (braceFree_digitChar n).2 braceFree_nil
    · exact braceFree_append (ih (n / 10))
        (braceFree_cons (braceFree_digitChar (n % 10)).1
          (braceFree_digitChar (n % 10)).2 braceFree_nil)

theorem braceFree_padNum (w n : Nat) : braceFreeL (padNum w n) := by
  unfold padNum natChars
  refine braceFree_append ?_ (braceFree_natCharsAux _ _)
  intro c hc
  rw [List.eq_of_mem_replicate hc]
  exact ⟨by decide, by decide⟩

theorem braceFree_timestamp (t : PyDateTime) : braceFreeL (strftimeTimestamp t) := by
  unfold strftimeTimestamp
  exact braceFree_append
    (braceFree_append (braceFree_append (braceFree_padNum _ _) (braceFree_padNum _ _))
      (braceFree_padNum _ _))
    (braceFree_cons (by decide) (by decide)
      (braceFree_append (braceFree_append (braceFree_padNum _ _) (braceFree_padNum _ _))
        (braceFree_padNum _ _)))

theorem braceFree_date (t : PyDateTime) : braceFreeL (strftimeDate t) := by
  unfold strftimeDate
  exact braceFree_append (braceFree_append (braceFree_padNum _ _) (braceFree_padNum _ _))
    (braceFree_padNum _ _)

theorem braceFree_time (t : PyDateTime) : braceFreeL (strftimeTime t) := by
  unfold strftimeTime
  exact braceFree_append (braceFree_append (braceFree_padNum _ _) (braceFree_padNum _ _))
    (braceFree_padNum _ _)

theorem braceFree_hexChar (n : Nat) : hexChar n ≠ '{' ∧ hexChar n ≠ '}' := by
  unfold hexChar
  split
  · have hv : 48 + n % 16 < 55296 := by omega
    apply braceFree_of_toNat_le
    rw [char_toNat_ofNat_valid _ hv]
    omega
  · have hv : 87 + n % 16 < 55296 := by omega
    apply braceFree_of_toNat_le
    rw [char_toNat_ofNat_valid _ hv]
    omega

theorem braceFree_hash (prompt : List Char) (n : Nat) :
    braceFreeL (generate_prompt_hash prompt n) := by
  unfold generate_prompt_hash
  intro c hc
  have hc2 := List.take_subset _ _ hc
  unfold hexOfBytes at hc2
  obtain ⟨l, hl, hcl⟩ := List.mem_flatten.mp hc2
  obtain ⟨b, _, rfl⟩ := List.mem_map.mp hl
  rcases List.mem_cons.mp hcl with h | h
  · rw [h]; exact braceFree_hexChar _
  · rcases List.mem_cons.mp h with h | h
    · rw [h]; exact braceFree_hexChar _
    · cases h

theorem braceFree_allowed {c : Char} (h : allowedCharB c = true) : c ≠ '{' ∧ c ≠ '}' := by
  unfold allowedCharB isAsciiLowerB isAsciiDigitB at h
  rcases Bool.or_eq_true_iff.mp h with h | h
  · rcases Bool.or_eq_true_iff.mp h with h | h
    · apply braceFree_of_toNat_le
      rcases Bool.and_eq_true_iff.mp h with ⟨-, h2⟩
      exact Nat.le_of_ble_eq_true (by simpa using h2)
    · apply braceFree_of_toNat_le
      rcases Bool.and_eq_true_iff.mp h with ⟨-, h2⟩
      have : c.toNat ≤ 57 := by simpa using of_decide_eq_true h2
      omega
  · have : c = '_' := by simpa using of_decide_eq_true h
    rw [this]
    exact ⟨by decide, by decide⟩

theorem braceFree_subject (prompt : List Char) : braceFreeL (extract_subject prompt 50) := by
  intro c hc
  have hall := (extract_subject_spec prompt).2.2
  exact braceFree_allowed (List.all_eq_true.mp hall c hc)

theorem isPrefixB_append_self (p t : List Char) : isPrefixB p (p ++ t) = true :=
  (isPrefixB_iff p (p ++ t)).mpr ⟨t, rfl⟩

theorem isPrefixB_cons_ne {p0 c : Char} {pt s : List Char} (h : p0 ≠ c) :
    isPrefixB (p0 :: pt) (c :: s) = false := by
  simp [isPrefixB, h]

theorem recognized_facts : ∀ p ∈ recognizedPHs, p.headD ' ' = '{' ∧ p ≠ [] := by decide

theorem recognized_no_cross : ∀ b ∈ recognizedPHs, ∀ p ∈ recognizedPHs, b ≠ p →
    ∀ i, i < b.length → isPrefixB p (b.drop i) = false ∧
      isPrefixB (b.drop i) p = false := by decide

theorem recognized_head (p : List Char) (hp : p ∈ recognizedPHs) :
    ∃ t, p = '{' :: t := by
  obtain ⟨h1, h2⟩ := recognized_facts p hp
  obtain ⟨c, t, rfl⟩ := List.exists_cons_of_ne_nil h2
  simp only [List.headD_cons] at h1
  rw [h1]
  exact ⟨t, rfl⟩

/-- Scanning through a block that matches the pattern nowhere leaves it
unchanged and continues after it. -/
theorem pyReplaceFuel_succ_cons (pat rep : List Char) (f : Nat) (c : Char)
    (rest : List Char) :
    pyReplaceFuel pat rep (f + 1) (c :: rest) =
      if pat ≠ [] ∧ isPrefixB pat (c :: rest) = true then
        rep ++ pyReplaceFuel pat rep f ((c :: rest).drop pat.length)
      else c :: pyReplaceFuel pat rep f rest := rfl

/-- Scanning through a block that matches the pattern nowhere leaves it
unchanged and continues after it. -/
theorem pyReplaceFuel_skip_block (p v : List Char) :
    ∀ (b : List Char), (∀ i, i < b.length → isPrefixB p (b.drop i) = false ∧
      isPrefixB (b.drop i) p = false) →
    ∀ (rest : List Char) (f : Nat), (b ++ rest).length ≤ f →
      pyReplaceFuel p v f (b ++ rest) = b ++ pyReplaceFuel p v (f - b.length) rest := by
  intro b
  induction b with
  | nil => intro _ rest f _; simp
  | cons c b' ih =>
    intro hkey rest f hf
    obtain ⟨f', rfl⟩ : ∃ f', f = f' + 1 := ⟨f - 1, by simp at hf; omega⟩
    have hnot : isPrefixB p ((c :: b') ++ rest) = false := by
      by_contra hx
      have hx2 : p <+: (c :: b') ++ rest :=
        (isPrefixB_iff _ _).mp (Bool.of_not_eq_false hx)
      have hcb : (c :: b') <+: (c :: b') ++ rest := ⟨rest, rfl⟩
      rcases List.prefix_or_prefix_of_prefix hx2 hcb with h | h
      · have h9 := (hkey 0 (by simp)).1
        rw [List.drop_zero] at h9
        rw [(isPrefixB_iff _ _).mpr h] at h9
        simp at h9
      · have h9 := (hkey 0 (by simp)).2
        rw [List.drop_zero] at h9
        rw [(isPrefixB_iff _ _).mpr h] at h9
        simp at h9
    have hcond : ¬ (p ≠ [] ∧ isPrefixB p (c :: (b' ++ rest)) = true) := by
      intro hx
      rw [show (c :: (b' ++ rest)) = (c :: b') ++ rest from rfl, hnot] at hx
      exact Bool.false_ne_true hx.2
    have hkey' : ∀ i, i < b'.length → isPrefixB p (b'.drop i) = false ∧
        isPrefixB (b'.drop i) p = false := by
      intro i hi
      have h9 := hkey (i + 1) (by simp; omega)
      simpa using h9
    have efuel : f' + 1 - (c :: b').length = f' - b'.length := by simp
    show pyReplaceFuel p v (f' + 1) (c :: (b' ++ rest)) = _
    rw [pyReplaceFuel_succ_cons, if_neg hcond,
      ih hkey' rest f' (by simp at hf ⊢; omega), efuel]
    rfl

theorem mixed_append_lit {S : List (List Char)} {v rest : List Char}
    (hv : braceFreeL v) (h : MixedTpl S rest) : MixedTpl S (v ++ rest) := by
  induction v with
  | nil => exact h
  | cons c v' ih =>
    have hc := hv c (List.mem_cons_self _ _)
    exact MixedTpl.lit hc.1 hc.2 (ih (fun x hx => hv x (List.mem_cons_of_mem _ hx)))

/-- Substituting one recognized placeholder in a mixed template yields a
mixed template over the remaining placeholders. -/
theorem mixed_replace {S : List (List Char)} {s : List Char}
    (hs : MixedTpl S s) (hS : ∀ b ∈ S, b ∈ recognizedPHs)
    {p : List Char} (hp : p ∈ recognizedPHs)
    {v : List Char} (hv : braceFreeL v) :
    ∀ f, s.length ≤ f →
      MixedTpl (S.filter (fun b => b ≠ p)) (pyReplaceFuel p v f s) := by
  induction hs with
  | nil =>
    intro f _
    rw [pyReplaceFuel_nil]
    exact MixedTpl.nil
  | lit hc1 hc2 hrest ih =>
    rename_i c rest
    intro f hf
    obtain ⟨f', rfl⟩ : ∃ f', f = f' + 1 := ⟨f - 1, by simp at hf; omega⟩
    obtain ⟨pt, rfl⟩ := recognized_head p hp
    rw [pyReplaceFuel_succ_cons, if_neg]
    · exact MixedTpl.lit hc1 hc2 (ih f' (by simp at hf; omega))
    · intro hx
      rw [isPrefixB_cons_ne (fun hEq => hc1 hEq.symm)] at hx
      exact Bool.false_ne_true hx.2
  | block hb hrest ih =>
    rename_i b rest
    intro f hf
    by_cases hbp : b = p
    · subst hbp
      obtain ⟨bt, hbt⟩ := recognized_head b (hS b hb)
      obtain ⟨f', rfl⟩ : ∃ f', f = f' + 1 := by
        refine ⟨f - 1, ?_⟩
        rw [hbt] at hf
        simp at hf
        omega
      have hpre : isPrefixB b (b ++ rest) = true := isPrefixB_append_self b rest
      have hbne : b ≠ [] := by rw [hbt]; exact List.cons_ne_nil _ _
      rw [show b ++ rest = b.headD ' ' :: (b.tail ++ rest) by rw [hbt]; rfl] at hpre ⊢
      rw [pyReplaceFuel_succ_cons, if_pos]
      · have hdrop : (b.headD ' ' :: (b.tail ++ rest)).drop b.length = rest := by
          rw [show b.headD ' ' :: (b.tail ++ rest) = b ++ rest by rw [hbt]; rfl]
          exact List.drop_left b rest
        rw [hdrop]
        refine mixed_append_lit hv (ih f' ?_)
        rw [hbt] at hf
        simp at hf
        omega
      · exact ⟨hbne, hpre⟩
    · have hkey := recognized_no_cross b (hS b hb) p hp hbp
      rw [pyReplaceFuel_skip_block p v b hkey rest f hf]
      refine MixedTpl.block ?_ (ih (f - b.length) ?_)
      · rw [List.mem_filter]
        exact ⟨hb, by simp [hbp]⟩
      · simp at hf
        omega

theorem matchMarker_none_of_ne {c : Char} {rest : List Char} (h : c ≠ '{') :
    matchMarker (c :: rest) = none := by
  cases rest with
  | nil => rfl
  | cons c2 t =>
    simp only [matchMarker]
    rw [if_neg (fun hx => h hx.1)]

theorem stripMarkersFuel_succ_cons (f : Nat) (c : Char) (rest : List Char) :
    stripMarkersFuel (f + 1) (c :: rest) =
      match matchMarker (c :: rest) with
      | some n => stripMarkersFuel f ((c :: rest).drop n)
      | none => c :: stripMarkersFuel f rest := rfl

theorem strip_lit {c : Char} {rest : List Char} (f : Nat) (h : c ≠ '{') :
    stripMarkersFuel (f + 1) (c :: rest) = c :: stripMarkersFuel f rest := by
  rw [stripMarkersFuel_succ_cons, matchMarker_none_of_ne h]

theorem matchMarker_counter (rest : List Char) :
    matchMarker (phCounter ++ rest) = some 12 := rfl

theorem strip_block_counter (f : Nat) (rest : List Char) :
    stripMarkersFuel (f + 1) (phCounter ++ rest) = stripMarkersFuel f rest := rfl

theorem phCounter_length : phCounter.length = 12 := rfl

theorem mixed_strip {S : List (List Char)} (hS : ∀ b ∈ S, b = phCounter)
    {s : List Char} (hs : MixedTpl S s) :
    ∀ f, s.length ≤ f → braceFreeL (stripMarkersFuel f s) := by
  induction hs with
  | nil =>
    intro f _
    cases f <;> exact braceFree_nil
  | lit hc1 hc2 hrest ih =>
    intro f hf
    obtain ⟨f', rfl⟩ : ∃ f', f = f' + 1 := ⟨f - 1, by simp at hf; omega⟩
    rw [strip_lit f' hc1]
    exact braceFree_cons hc1 hc2 (ih f' (by simp at hf; omega))
  | block hb hrest ih =>
    rename_i b rest
    intro f hf
    have hbc := hS b hb
    subst hbc
    rw [List.length_append, phCounter_length] at hf
    obtain ⟨f', rfl⟩ : ∃ f', f = f' + 1 := ⟨f - 1, by omega⟩
    rw [strip_block_counter]
    exact ih f' (by omega)

theorem braceFree_sanitize {s : List Char} (h : braceFreeL s) :
    braceFreeL (sanitizeChars s) := by
  intro c hc
  unfold sanitizeChars at hc
  obtain ⟨a, ha, rfl⟩ := List.mem_map.mp hc
  by_cases hi : illegalChars.contains a = true
  · rw [if_pos hi]
    exact ⟨by decide, by decide⟩
  · rw [if_neg hi]
    exact h a ha

theorem collapseU_subset : ∀ (s : List Char), ∀ c ∈ collapseU s, c ∈ s := by
  intro s
  induction s with
  | nil => intro c hc; cases hc
  | cons a rest ih =>
    cases rest with
    | nil =>
      intro c hc
      simpa [collapseU] using hc
    | cons b rest2 =>
      intro c hc
      rw [show collapseU (a :: b :: rest2) = if a = '_' ∧ b = '_' then collapseU (b :: rest2)
        else a :: collapseU (b :: rest2) from rfl] at hc
      split at hc
      · exact List.mem_cons_of_mem _ (ih c hc)
      · rcases List.mem_cons.mp hc with h | h
        · rw [h]; exact List.mem_cons_self _ _
        · exact List.mem_cons_of_mem _ (ih c h)

theorem stripUnderscores_subset (s : List Char) : ∀ c ∈ stripUnderscores s, c ∈ s := by
  intro c hc
  unfold stripUnderscores at hc
  rw [List.mem_reverse] at hc
  have h1 := (List.dropWhile_sublist (l := (s.dropWhile (fun c => c = '_')).reverse)
    (p := fun c => c = '_')).subset hc
  rw [List.mem_reverse] at h1
  exact (List.dropWhile_sublist (l := s) (p := fun c => c = '_')).subset h1

theorem braceFree_no_residue : ∀ (s : List Char), braceFreeL s →
    containsSub s (str "\x7b\x7b") = false ∧ containsSub s (str "\x7d\x7d") = false := by
  intro s
  induction s with
  | nil => intro _; exact ⟨rfl, rfl⟩
  | cons c rest ih =>
    intro h
    have hc := h c (List.mem_cons_self _ _)
    have hrest := ih (fun x hx => h x (List.mem_cons_of_mem _ hx))
    have e1 : str "\x7b\x7b" = '{' :: '{' :: [] := rfl
    have e2 : str "\x7d\x7d" = '}' :: '}' :: [] := rfl
    constructor
    · show (isPrefixB (str "\x7b\x7b") (c :: rest) || containsSub rest (str "\x7b\x7b")) = false
      rw [e1, isPrefixB_cons_ne (fun hEq => hc.1 hEq.symm), ← e1, hrest.1]
      rfl
    · show (isPrefixB (str "\x7d\x7d") (c :: rest) || containsSub rest (str "\x7d\x7d")) = false
      rw [e2, isPrefixB_cons_ne (fun hEq => hc.2 hEq.symm), ← e2, hrest.2]
      rfl

theorem mixed_pyReplace {S : List (List Char)} {s : List Char}
    (hs : MixedTpl S s) (hS : ∀ b ∈ S, b ∈ recognizedPHs)
    {p : List Char} (hp : p ∈ recognizedPHs) {v : List Char} (hv : braceFreeL v) :
    MixedTpl (S.filter (fun b => b ≠ p)) (pyReplace s p v) :=
  mixed_replace hs hS hp hv s.length le_rfl

theorem hS_step {S : List (List Char)} (h : ∀ b ∈ S, b ∈ recognizedPHs)
    (q : List Char → Bool) : ∀ b ∈ S.filter q, b ∈ recognizedPHs :=
  fun b hb => h b (List.mem_filter.mp hb).1

/-- C8 amended: for every template built only from recognized placeholders,
and provided the substituted provider and model values are brace-free (the
timestamp, date, time, subject, hash and counter values always are), the
rendered filename contains no `\x7b\x7b` or `\x7d\x7d` residue; in
particular an unresolved `\x7b\x7b.Counter\x7d\x7d` is stripped outright. -/
theorem claim8_amended (now : PyDateTime) (tpl prompt provider model : List Char)
    (counter : Option Nat)
    (htpl : MixedTpl recognizedPHs tpl)
    (hprov : braceFreeL (pyLower provider))
    (hmodel : braceFreeL (pyReplace (pyReplace model ['.'] []) ['-'] [])) :
    containsSub (apply_filename_template now tpl prompt provider model counter)
      (str "\x7b\x7b") = false ∧
    containsSub (apply_filename_template now tpl prompt provider model counter)
      (str "\x7d\x7d") = false := by
  have hS0 : ∀ b ∈ recognizedPHs, b ∈ recognizedPHs := fun b hb => hb
  have m1 := mixed_pyReplace htpl hS0 (p := phTimestamp) (by decide)
    (braceFree_timestamp now)
  have m2 := mixed_pyReplace m1 (hS_step hS0 _) (p := phDate) (by decide)
    (braceFree_date now)
  have m3 := mixed_pyReplace m2 (hS_step (hS_step hS0 _) _) (p := phTime) (by decide)
    (braceFree_time now)
  have m4 := mixed_pyReplace m3 (hS_step (hS_step (hS_step hS0 _) _) _)
    (p := phProvider) (by decide) hprov
  have m5 := mixed_pyReplace m4 (hS_step (hS_step (hS_step (hS_step hS0 _) _) _) _)
    (p := phModel) (by decide) hmodel
  have m6 := mixed_pyReplace m5
    (hS_step (hS_step (hS_step (hS_step (hS_step hS0 _) _) _) _) _)
    (p := phSubject) (by decide) (braceFree_subject prompt)
  have m7 := mixed_pyReplace m6
    (hS_step (hS_step (hS_step (hS_step (hS_step (hS_step hS0 _) _) _) _) _) _)
    (p := phHash) (by decide) (braceFree_hash prompt 8)
  cases counter with
  | none =>
    simp only [apply_filename_template, templateVars, List.cons_append, List.nil_append,
      List.foldl_cons, List.foldl_nil]
    refine braceFree_no_residue _ ?_
    refine braceFree_of_subset (stripUnderscores_subset _) ?_
    refine braceFree_of_subset (collapseU_subset _) ?_
    refine braceFree_sanitize ?_
    exact mixed_strip (by decide) m7 _ le_rfl
  | some c =>
    have m8 := mixed_pyReplace m7
      (hS_step (hS_step (hS_step (hS_step (hS_step (hS_step (hS_step hS0 _) _) _) _) _) _) _)
      (p := phCounter) (by decide) (braceFree_padNum 3 c)
    simp only [apply_filename_template, templateVars, List.cons_append, List.nil_append,
      List.foldl_cons, List.foldl_nil]
    refine braceFree_no_residue _ ?_
    refine braceFree_of_subset (stripUnderscores_subset _) ?_
    refine braceFree_of_subset (collapseU_subset _) ?_
    refine braceFree_sanitize ?_
    exact mixed_strip (by decide) m8 _ le_rfl

/-- C8 counterexample: the template `\x7b\x7b.Model\x7d\x7d` contains only a
recognized placeholder, yet with the user-supplied model string `\x7b\x7bx`
(which the tool layer passes through unvalidated) the rendered filename
still contains `\x7b\x7b`. -/
theorem claim8_counterexample :
    MixedTpl recognizedPHs (str "\x7b\x7b.Model\x7d\x7d") ∧
    containsSub (apply_filename_template c6now (str "\x7b\x7b.Model\x7d\x7d") (str "p")
      (str "s") (str "\x7b\x7bx") none) (str "\x7b\x7b") = true := by
  constructor
  · have e : str "\x7b\x7b.Model\x7d\x7d" = phModel ++ [] := by decide
    rw [e]
    exact MixedTpl.block (by decide) MixedTpl.nil
  · decide

/-- Witness for C8 amended: an unresolved `\x7b\x7b.Counter\x7d\x7d` is
stripped and leaves no residue. -/
theorem claim8_witness :
    containsSub (apply_filename_template c6now (str "\x7b\x7b.Counter\x7d\x7d") (str "p")
      (str "stability") (str "sd3.5-large") none) (str "\x7b\x7b") = false ∧
    containsSub (apply_filename_template c6now (str "\x7b\x7b.Counter\x7d\x7d") (str "p")
      (str "stability") (str "sd3.5-large") none) (str "\x7d\x7d") = false := by
  refine claim8_amended c6now (str "\x7b\x7b.Counter\x7d\x7d") (str "p") (str "stability")
    (str "sd3.5-large") none ?_ ?_ ?_
  · have e : str "\x7b\x7b.Counter\x7d\x7d" = phCounter ++ [] := by decide
    rw [e]
    exact MixedTpl.block (by decide) MixedTpl.nil
  · show ∀ c ∈ pyLower (str "stability"), c ≠ '{' ∧ c ≠ '}'
    decide
  · show ∀ c ∈ pyReplace (pyReplace (str "sd3.5-large") ['.'] []) ['-'] [], c ≠ '{' ∧ c ≠ '}'
    decide
